import Mathlib

/-!
Verification of the sociclaw secure external job client.

Shallow embedding of:
- `sociclaw/scripts/http_retry.py` (retry transport),
- `sociclaw/scripts/image_provider_client.py` (image input resolver and job client),
- `sociclaw/scripts/image_generator.py` (generation orchestrator).

Python strings are modelled as `List Char`; machine floats that only undergo
field arithmetic are modelled as rationals; OS / stdlib effects (filesystem
canonicalization, `urlparse`, `mimetypes`, `base64`, the network) are modelled
as explicit oracle parameters so the control flow of the source functions is
reproduced exactly; effects we must reason about (number of network requests,
number of provider calls, credit debits) are returned as explicit counters
alongside the source function's return value.
-/

namespace Sociclaw

/-- Python strings, modelled as lists of characters. -/
abbrev Str := List Char

/-! ## `http_retry.py` -/

namespace HttpRetry

/-- Outcome of one underlying `session.request` call: either a response with a
status code, or a raised `requests.RequestException` (identified by a code). -/
inductive ReqOutcome where
  | resp (status : Nat)
  | exc (e : Nat)
deriving DecidableEq

/-- Models `DEFAULT_RETRY_STATUSES = (429, 500, 502, 503, 504)`. -/
def DEFAULT_RETRY_STATUSES : List Nat := [429, 500, 502, 503, 504]

/-- The attempt loop of `request_with_retry` (`for attempt in range(max_retries + 1)`),
re-indexed structurally: `remaining = max_retries - attempt`, so the guard
`attempt < max_retries` of the source becomes `remaining > 0`.
Returns the outcome (`.ok status` for a returned response, `.error e` for a
re-raised exception) together with the number of underlying request attempts
performed. -/
def requestWithRetryGo (transport : Nat → ReqOutcome) (retryable : List Nat) :
    (remaining attempt : Nat) → Except Nat Nat × Nat
  | 0, attempt =>
    match transport attempt with
    | .resp s => (.ok s, attempt + 1)
    | .exc e => (.error e, attempt + 1)
  | r + 1, attempt =>
    match transport attempt with
    | .resp s =>
      if retryable.contains s then requestWithRetryGo transport retryable r (attempt + 1)
      else (.ok s, attempt + 1)
    | .exc _ => requestWithRetryGo transport retryable r (attempt + 1)

/-- Models `request_with_retry(...)`: total attempts are `1 + max_retries`; a response
whose status is not retryable (or produced on the last attempt) is returned
as-is; an exception on the last attempt is re-raised. -/
def request_with_retry (transport : Nat → ReqOutcome) (retryable : List Nat)
    (maxRetries : Nat) : Except Nat Nat × Nat :=
  requestWithRetryGo transport retryable maxRetries 0

/-- Models `_sleep_with_jitter`: `delay = max(0.05, float(base_seconds)) * (2 ** int(attempt))`. -/
def backoffDelay (baseSeconds : ℚ) (attempt : Nat) : ℚ :=
  max (1 / 20 : ℚ) baseSeconds * 2 ^ attempt

/-- Models `_sleep_with_jitter`: the jitter is drawn from
`random.uniform(0.0, min(0.25, delay * 0.2))`; this is its upper bound. -/
def jitterUpperBound (baseSeconds : ℚ) (attempt : Nat) : ℚ :=
  min (1 / 4 : ℚ) (backoffDelay baseSeconds attempt * (1 / 5))

/-- Models `_sleep_with_jitter` sleeps `delay + jitter`, where the jitter drawn is
passed explicitly (the code draws it uniformly from
`[0, jitterUpperBound base attempt]`). -/
def sleepWithJitter (baseSeconds : ℚ) (attempt : Nat) (jitter : ℚ) : ℚ :=
  backoffDelay baseSeconds attempt + jitter

end HttpRetry

end Sociclaw

namespace Sociclaw.HttpRetry

/-- Helper for C4: if every attempt in the window returns a retryable status,
the loop walks to the last attempt and returns its response. -/
theorem requestWithRetryGo_all_retryable (transport : Nat → ReqOutcome)
    (retryable : List Nat) :
    ∀ r attempt,
      (∀ i, attempt ≤ i → i ≤ attempt + r → ∃ s, transport i = .resp s ∧
        retryable.contains s = true) →
      ∀ s, transport (attempt + r) = .resp s →
      requestWithRetryGo transport retryable r attempt = (.ok s, attempt + r + 1) := by
  intro r
  induction r with
  | zero =>
    intro attempt _ s hs
    simp only [Nat.add_zero] at hs
    simp [requestWithRetryGo, hs]
  | succ n ih =>
    intro attempt hall s hs
    obtain ⟨s0, hs0, hmem⟩ := hall attempt le_rfl (Nat.le_add_right _ _)
    have hm : s0 ∈ retryable := by simpa using hmem
    have step : requestWithRetryGo transport retryable (n + 1) attempt =
        requestWithRetryGo transport retryable n (attempt + 1) := by
      simp [requestWithRetryGo, hs0, hmem, hm]
    rw [step]
    have hall' : ∀ i, attempt + 1 ≤ i → i ≤ attempt + 1 + n → ∃ s, transport i = .resp s ∧
        retryable.contains s = true := by
      intro i h1 h2
      exact hall i (Nat.le_of_succ_le h1) (by omega)
    have hs' : transport (attempt + 1 + n) = .resp s := by
      have : attempt + 1 + n = attempt + (n + 1) := by omega
      rw [this]; exact hs
    have := ih (attempt + 1) hall' s hs'
    rw [this]
    congr 1
    omega

/-- Helper for C4: if every attempt in the window raises, the loop walks to the
last attempt and re-raises its error. -/
theorem requestWithRetryGo_all_exc (transport : Nat → ReqOutcome)
    (retryable : List Nat) :
    ∀ r attempt,
      (∀ i, attempt ≤ i → i ≤ attempt + r → ∃ e, transport i = .exc e) →
      ∀ e, transport (attempt + r) = .exc e →
      requestWithRetryGo transport retryable r attempt = (.error e, attempt + r + 1) := by
  intro r
  induction r with
  | zero =>
    intro attempt _ e he
    simp only [Nat.add_zero] at he
    simp [requestWithRetryGo, he]
  | succ n ih =>
    intro attempt hall e he
    obtain ⟨e0, he0⟩ := hall attempt le_rfl (Nat.le_add_right _ _)
    have step : requestWithRetryGo transport retryable (n + 1) attempt =
        requestWithRetryGo transport retryable n (attempt + 1) := by
      simp [requestWithRetryGo, he0]
    rw [step]
    have hall' : ∀ i, attempt + 1 ≤ i → i ≤ attempt + 1 + n → ∃ e, transport i = .exc e := by
      intro i h1 h2
      exact hall i (Nat.le_of_succ_le h1) (by omega)
    have he' : transport (attempt + 1 + n) = .exc e := by
      have : attempt + 1 + n = attempt + (n + 1) := by omega
      rw [this]; exact he
    have := ih (attempt + 1) hall' e he'
    rw [this]
    congr 1
    omega

/-- C4: for every `max_retries = n ≥ 0`, `request_with_retry` performs exactly
`n + 1` underlying request attempts when every attempt fails transiently: if
every attempt returns a retryable status, the `(n+1)`-th response is returned
without raising; if every attempt raises a connectivity error, the error of the
`(n+1)`-th attempt is re-raised. -/
theorem request_with_retry_attempt_count (transport : Nat → ReqOutcome)
    (retryable : List Nat) (n : Nat) :
    ((∀ i, i ≤ n → ∃ s, transport i = .resp s ∧ retryable.contains s = true) →
      ∀ s, transport n = .resp s →
      request_with_retry transport retryable n = (.ok s, n + 1)) ∧
    ((∀ i, i ≤ n → ∃ e, transport i = .exc e) →
      ∀ e, transport n = .exc e →
      request_with_retry transport retryable n = (.error e, n + 1)) := by
  constructor
  · intro hall s hs
    have := requestWithRetryGo_all_retryable transport retryable n 0
      (by intro i h1 h2; exact hall i (by omega)) s (by simpa using hs)
    simpa [request_with_retry] using this
  · intro hall e he
    have := requestWithRetryGo_all_exc transport retryable n 0
      (by intro i h1 h2; exact hall i (by omega)) e (by simpa using he)
    simpa [request_with_retry] using this

/-- Witness for C4 at `n = 2`: a transport always answering 429 is called three
times and the final 429 response is returned; a transport always raising is
called three times and the last error is re-raised. -/
theorem request_with_retry_attempt_count_witness :
    request_with_retry (fun _ => .resp 429) DEFAULT_RETRY_STATUSES 2 = (.ok 429, 3) ∧
    request_with_retry (fun _ => .exc 7) DEFAULT_RETRY_STATUSES 2 = (.error 7, 3) :=
  ⟨(request_with_retry_attempt_count (fun _ => .resp 429) DEFAULT_RETRY_STATUSES 2).1
      (fun i _ => ⟨429, rfl, by decide⟩) 429 rfl,
   (request_with_retry_attempt_count (fun _ => .exc 7) DEFAULT_RETRY_STATUSES 2).2
      (fun i _ => ⟨7, rfl⟩) 7 rfl⟩

/-- Counterexample for C5: the claim says the sleep before retry attempt
`a + 1` equals `backoff_base * 2^a` plus the jitter, for every
`backoff_base_seconds > 0`; at `backoff_base = 1/100` (which is `> 0`),
attempt `0` and jitter `0` the code sleeps `max(0.05, 1/100) = 1/20`, not
`1/100 * 2^0`. -/
theorem sleepWithJitter_small_base_counterexample :
    ¬ (sleepWithJitter (1 / 100) 0 0 = (1 / 100 : ℚ) * 2 ^ 0 + 0) := by
  norm_num [sleepWithJitter, backoffDelay]

/-- C5 (amended): for every `backoff_base_seconds > 0` and attempt `a ≥ 0`, the
sleep before retry attempt `a + 1` equals `max(0.05, backoff_base) * 2^a` plus
the jitter drawn from `[0, min(0.25, delay * 0.2)]`; when
`backoff_base ≥ 0.05` this is exactly `backoff_base * 2^a` plus jitter; the
delay is non-decreasing in the attempt index and the jitter bound always lies
within `[0, 0.25 * base_delay]`. -/
theorem sleepWithJitter_spec (base : ℚ) (hbase : 0 < base) (a : Nat)
    (j : ℚ) (hj0 : 0 ≤ j) (hj1 : j ≤ jitterUpperBound base a) :
    sleepWithJitter base a j = max (1 / 20) base * 2 ^ a + j ∧
    (1 / 20 ≤ base → sleepWithJitter base a j = base * 2 ^ a + j) ∧
    backoffDelay base a ≤ backoffDelay base (a + 1) ∧
    0 ≤ jitterUpperBound base a ∧
    jitterUpperBound base a ≤ (1 / 4) * backoffDelay base a := by
  have hdelay_pos : 0 < backoffDelay base a := by
    have h1 : (0 : ℚ) < max (1 / 20) base := lt_max_of_lt_right hbase
    have h2 : (0 : ℚ) < 2 ^ a := by positivity
    exact mul_pos h1 h2
  refine ⟨rfl, ?_, ?_, ?_, ?_⟩
  · intro hb
    unfold sleepWithJitter backoffDelay
    rw [max_eq_right hb]
  · unfold backoffDelay
    have h1 : (0 : ℚ) ≤ max (1 / 20) base := le_max_of_le_right hbase.le
    have h2 : (2 : ℚ) ^ a ≤ 2 ^ (a + 1) := by
      apply pow_le_pow_right₀ (by norm_num)
      omega
    exact mul_le_mul_of_nonneg_left h2 h1
  · unfold jitterUpperBound
    have : (0 : ℚ) ≤ backoffDelay base a * (1 / 5) := by
      have := hdelay_pos.le
      positivity
    exact le_min (by norm_num) this
  · unfold jitterUpperBound
    rcases le_or_lt (backoffDelay base a) 1 with h | h
    · calc min (1 / 4 : ℚ) (backoffDelay base a * (1 / 5))
          ≤ backoffDelay base a * (1 / 5) := min_le_right _ _
        _ ≤ (1 / 4) * backoffDelay base a := by nlinarith [hdelay_pos.le]
    · calc min (1 / 4 : ℚ) (backoffDelay base a * (1 / 5))
          ≤ 1 / 4 := min_le_left _ _
        _ ≤ (1 / 4) * backoffDelay base a := by nlinarith

/-- Witness for the amended C5 at `base = 1/2` attempt `1` jitter `0`. -/
theorem sleepWithJitter_spec_witness :
    sleepWithJitter (1 / 2) 1 0 = max (1 / 20) (1 / 2 : ℚ) * 2 ^ 1 + 0 ∧
    backoffDelay (1 / 2) 1 ≤ backoffDelay (1 / 2) (1 + 1) ∧
    0 ≤ jitterUpperBound (1 / 2) 1 ∧
    jitterUpperBound (1 / 2) 1 ≤ (1 / 4) * backoffDelay (1 / 2) 1 := by
  have h := sleepWithJitter_spec (1 / 2) (by norm_num) 1 0 le_rfl
    (by norm_num [jitterUpperBound, backoffDelay])
  exact ⟨h.1, h.2.2.1, h.2.2.2.1, h.2.2.2.2⟩

end Sociclaw.HttpRetry

namespace Sociclaw

/-! ## Python string methods over `List Char` -/

/-- ASCII lower-casing of one character (`str.lower` on the ASCII range). -/
def lowerChar (c : Char) : Char :=
  if 65 ≤ c.toNat ∧ c.toNat ≤ 90 then Char.ofNat (c.toNat + 32) else c

/-- Models `str.lower()`. -/
def lowerStr (s : Str) : Str := s.map lowerChar

/-- The whitespace characters removed by `str.strip()`. -/
def isPySpace (c : Char) : Bool :=
  c == ' ' || c == '\t' || c == '\n' || c == '\r' || c == Char.ofNat 11 || c == Char.ofNat 12

/-- Models `str.strip()`. -/
def stripStr (s : Str) : Str :=
  ((s.dropWhile isPySpace).reverse.dropWhile isPySpace).reverse

/-- Models `str.rstrip(".")`. -/
def rstripDots (s : Str) : Str := (s.reverse.dropWhile (fun c => c == '.')).reverse

/-- Models `str.startswith(p)`. -/
def startsWithStr (s p : Str) : Bool := p.isPrefixOf s

/-- Models `str.endswith(p)`. -/
def endsWithStr (s p : Str) : Bool := p.reverse.isPrefixOf s.reverse

/-- Python substring containment, `needle in hay`. -/
def containsSub (needle : Str) : Str → Bool
  | [] => needle.isEmpty
  | c :: t => needle.isPrefixOf (c :: t) || containsSub needle t

/-- Models `str.split(sep)` for a one-character separator. -/
def splitOnChar (sep : Char) : Str → List Str
  | [] => [[]]
  | c :: t =>
    if c == sep then [] :: splitOnChar sep t
    else
      match splitOnChar sep t with
      | [] => [[c]]
      | h :: r => (c :: h) :: r

/-- ASCII decimal digit test. -/
def isDigitChar (c : Char) : Bool := 48 ≤ c.toNat && c.toNat ≤ 57

/-- Value of an all-digit string. -/
def digitsToNat (s : Str) : Nat := s.foldl (fun a c => a * 10 + (c.toNat - 48)) 0

/-! ## `ipaddress` model (IPv4 dotted-quad literals)

`ipaddress.ip_address` also accepts IPv6 literals; the model covers the IPv4
dotted-quad form, which is the form a URL hostname takes without brackets. -/

/-- One dotted-quad component: decimal, no leading zeros, at most 3 digits,
value at most 255 (the grammar `ipaddress.IPv4Address` accepts). -/
def parseIPv4Part (s : Str) : Option Nat :=
  if s.isEmpty then none
  else if ¬ s.all isDigitChar then none
  else if 1 < s.length ∧ s.head? = some '0' then none
  else if 3 < s.length then none
  else
    let v := digitsToNat s
    if v ≤ 255 then some v else none

/-- An IPv4 address as its four octets. -/
structure IPv4 where
  a : Nat
  b : Nat
  c : Nat
  d : Nat
deriving DecidableEq

/-- Models `ipaddress.ip_address` on a dotted-quad literal; `none` models the raised
`ValueError` for non-IP hostnames. -/
def parseIPv4 (host : Str) : Option IPv4 :=
  match (splitOnChar '.' host).mapM parseIPv4Part with
  | some [a, b, c, d] => some ⟨a, b, c, d⟩
  | _ => none

/-- Models `IPv4Address.is_private` (the union of the stdlib's private networks). -/
def ipv4IsPrivate (ip : IPv4) : Bool :=
  ip.a == 0 || ip.a == 10 || ip.a == 127 ||
  (ip.a == 169 && ip.b == 254) ||
  (ip.a == 172 && 16 ≤ ip.b && ip.b ≤ 31) ||
  (ip.a == 192 && ip.b == 0 && ip.c == 0 && ip.d ≤ 7) ||
  (ip.a == 192 && ip.b == 0 && ip.c == 0 && (ip.d == 170 || ip.d == 171)) ||
  (ip.a == 192 && ip.b == 0 && ip.c == 2) ||
  (ip.a == 192 && ip.b == 168) ||
  (ip.a == 198 && (ip.b == 18 || ip.b == 19)) ||
  (ip.a == 198 && ip.b == 51 && ip.c == 100) ||
  (ip.a == 203 && ip.b == 0 && ip.c == 113) ||
  240 ≤ ip.a

/-- Models `IPv4Address.is_loopback` (127.0.0.0/8). -/
def ipv4IsLoopback (ip : IPv4) : Bool := ip.a == 127

/-- Models `IPv4Address.is_link_local` (169.254.0.0/16). -/
def ipv4IsLinkLocal (ip : IPv4) : Bool := ip.a == 169 && ip.b == 254

/-- Models `IPv4Address.is_reserved` (240.0.0.0/4). -/
def ipv4IsReserved (ip : IPv4) : Bool := 240 ≤ ip.a

/-- Models `IPv4Address.is_multicast` (224.0.0.0/4). -/
def ipv4IsMulticast (ip : IPv4) : Bool := 224 ≤ ip.a && ip.a ≤ 239

/-- Models `IPv4Address.is_unspecified` (0.0.0.0). -/
def ipv4IsUnspecified (ip : IPv4) : Bool :=
  ip.a == 0 && ip.b == 0 && ip.c == 0 && ip.d == 0

/-- The disjunction tested in `_is_allowed_remote_image_url`. -/
def ipv4Blocked (ip : IPv4) : Bool :=
  ipv4IsPrivate ip || ipv4IsLoopback ip || ipv4IsLinkLocal ip ||
  ipv4IsReserved ip || ipv4IsMulticast ip || ipv4IsUnspecified ip

/-- Python truthiness of an `Optional[str]`. -/
def pyTruthy (a : Option Str) : Bool :=
  match a with
  | some s => ¬ s.isEmpty
  | none => false

/-- Python `a or b` on two `Optional[str]` values. -/
def pyOrStr (a b : Option Str) : Option Str :=
  match a with
  | some s => if s.isEmpty then b else some s
  | none => b

/-- Python `a or b` where `a : Optional[str]` and `b : str`. -/
def pyOrStrD (a : Option Str) (b : Str) : Str :=
  match a with
  | some s => if s.isEmpty then b else s
  | none => b

end Sociclaw

namespace Sociclaw.Client

open Sociclaw

/-! ## `image_provider_client.py`: data model and oracles -/

/-- A canonical absolute filesystem path, as its components. -/
abbrev PathC := List Str

/-- The fields of a parsed URL (`urllib.parse.urlparse`) the client reads. -/
structure UrlParts where
  scheme : Str
  hostname : Option Str

/-- Python stdlib routines the client calls, supplied as oracles:
`urlparse`, the `file://` URI path extraction (`urlparse` + `unquote` +
platform slash handling of `_resolve_local_path`), `mimetypes.guess_type`, and
`base64.b64encode(...).decode("ascii")`. A `none` result models a raised
exception (`fileUriPath` is `none` when `parsed.scheme != "file"`). -/
structure Stdlib where
  parseUrl : Str → Option UrlParts
  fileUriPath : Str → Option Str
  guessType : Str → Option Str
  b64encode : List Nat → Str

/-- Filesystem effects, supplied as oracles. `canonicalize` is
`Path(...).expanduser()` + absolutization against the cwd + `.resolve()`, with
`none` modelling a raised `OSError`/`RuntimeError` (or a `TypeError`/`ValueError`
from `Path(value)`); `isFile` is `candidate.is_file()` with `none` modelling a
raised `OSError`; `readBytes` is `read_bytes()` with `none` an `OSError`. -/
structure Fs where
  canonicalize : Str → Option PathC
  isFile : PathC → Option Bool
  readBytes : PathC → Option (List Nat)

/-- One streamed `session.get` response: `resp.ok`, `len(resp.history)`,
`resp.url`, the raw `Content-Type` header, and the body chunks yielded by
`iter_content`. -/
structure HttpResponse where
  ok : Bool
  historyLen : Nat
  finalUrl : Str
  contentTypeHeader : Str
  chunks : List (List Nat)

/-- The network, as an oracle: `none` models a raised `requests.RequestException`. -/
structure Net where
  get : Str → Option HttpResponse

/-- The client configuration read in `__init__`: the remote-fetch opt-in flag,
the inline-fallback kill switch (`SOCICLAW_DISABLE_IMAGE_DATA_URL_FALLBACK`,
read inside `_resolve_image_data_url`), the resolved allowed local roots and
allowed URL hosts (already normalized by `_resolve_allowed_roots` /
`_resolve_allowed_url_hosts`), the payload size cap and the redirect cap. -/
structure ClientEnv where
  allowRemoteUrl : Bool
  disableDataUrlFallback : Bool
  allowedInputRoots : List PathC
  allowedUrlHosts : List Str
  maxPayloadBytes : Nat
  maxRemoteRedirects : Nat

/-- Models `_is_allowed_path`: `candidate.relative_to(root)` succeeds exactly when
`root`'s components lead `candidate`'s. -/
def is_allowed_path (roots : List PathC) (candidate : PathC) : Bool :=
  roots.any fun root => root.isPrefixOf candidate

/-- Models `_normalize_local_path`: canonicalize, require a regular file, require
containment in an allowed root; every rejection is a silent `None`. -/
def normalize_local_path (env : ClientEnv) (fs : Fs) (path : Str) : Option PathC :=
  match fs.canonicalize path with
  | none => none
  | some candidate =>
    match fs.isFile candidate with
    | none => none
    | some false => none
    | some true =>
      if is_allowed_path env.allowedInputRoots candidate then some candidate else none

/-- Models `_resolve_local_path`: strip, reject empty, peel a `file://` URI through
the stdlib oracle, then `_normalize_local_path`. -/
def resolve_local_path (env : ClientEnv) (fs : Fs) (std : Stdlib)
    (imageInput : Str) : Option PathC :=
  let value := stripStr imageInput
  if value.isEmpty then none
  else if startsWithStr (lowerStr value) ("file://".toList) then
    match std.fileUriPath value with
    | none => none
    | some fp => normalize_local_path env fs fp
  else normalize_local_path env fs value

/-- Models `_host_matches_allowlist`: normalize the host, deny on an empty host or an
empty allowlist, then try `*`, `*.suffix` and exact patterns in order. -/
def host_matches_allowlist (env : ClientEnv) (host : Str) : Bool :=
  let normalized := rstripDots (lowerStr (stripStr host))
  if normalized.isEmpty || env.allowedUrlHosts.isEmpty then false
  else env.allowedUrlHosts.any fun pat =>
    if pat = "*".toList then true
    else if startsWithStr pat ("*.".toList) then
      let base := pat.drop 2
      normalized = base || endsWithStr normalized ('.' :: base)
    else normalized = pat

/-- Models `(parsed.hostname or "").strip().lower().rstrip(".")`. -/
def urlHostNorm (parsed : UrlParts) : Str :=
  rstripDots (lowerStr (stripStr (parsed.hostname.getD [])))

/-- Models `_is_allowed_remote_image_url`: https only; non-empty host; name-based
denials (`localhost`, `0.0.0.0`, `*.local`); blocked IPv4-literal ranges; and
finally the positive host allowlist. -/
def is_allowed_remote_image_url (env : ClientEnv) (std : Stdlib) (url : Str) : Bool :=
  match std.parseUrl url with
  | none => false
  | some parsed =>
    let scheme := lowerStr parsed.scheme
    if scheme ≠ "https".toList then false
    else
      let host := urlHostNorm parsed
      if host.isEmpty then false
      else if host = "localhost".toList || host = "0.0.0.0".toList ||
          endsWithStr host (".local".toList) then false
      else
        let blockedIp :=
          match parseIPv4 host with
          | some ip => ipv4Blocked ip
          | none => false
        if blockedIp then false
        else if ¬ host_matches_allowlist env host then false
        else true

/-- Models `resp.headers.get("Content-Type", "").split(";", 1)[0]`. -/
def takeUntilSemicolon (s : Str) : Str := s.takeWhile (fun c => c != ';')

/-- The `iter_content` loop of `_fetch_remote_image_bytes`: skip empty chunks,
abort (`none`) once the running total exceeds the cap, else concatenate. -/
def accumulateChunks (maxBytes : Nat) : Nat → List (List Nat) → Option (List Nat)
  | _, [] => some []
  | total, chunk :: rest =>
    if chunk.isEmpty then accumulateChunks maxBytes total rest
    else
      let total2 := total + chunk.length
      if maxBytes < total2 then none
      else
        match accumulateChunks maxBytes total2 rest with
        | none => none
        | some tl => some (chunk ++ tl)

/-- Models `_fetch_remote_image_bytes`: non-ok responses, responses that followed more
than `max_remote_redirects` redirects, responses whose final URL moved and no
longer passes `_is_allowed_remote_image_url`, oversize bodies and transport
exceptions all yield `(b"", None, None)`. -/
def fetch_remote_image_bytes (env : ClientEnv) (std : Stdlib) (net : Net)
    (url : Str) : List Nat × Option Str × Option Str :=
  match net.get url with
  | none => ([], none, none)
  | some resp =>
    if ¬ resp.ok then ([], none, none)
    else if env.maxRemoteRedirects < resp.historyLen then ([], none, none)
    else
      let finalUrl := if resp.finalUrl.isEmpty then url else resp.finalUrl
      if finalUrl ≠ url ∧ ¬ is_allowed_remote_image_url env std finalUrl then
        ([], none, none)
      else
        let ct := lowerStr (stripStr (takeUntilSemicolon resp.contentTypeHeader))
        let contentType := if ct.isEmpty then none else some ct
        match accumulateChunks env.maxPayloadBytes 0 resp.chunks with
        | none => ([], none, none)
        | some data => (data, contentType, some finalUrl)

/-- Models `_sniff_image_type`: magic-byte signatures for PNG, JPEG, GIF, WEBP, BMP,
TIFF. -/
def sniff_image_type (data : List Nat) : Option Str :=
  if data.isEmpty then none
  else if ([137, 80, 78, 71, 13, 10, 26, 10] : List Nat).isPrefixOf data then
    some ("png".toList)
  else if data.take 3 = [255, 216, 255] then some ("jpeg".toList)
  else if data.take 6 = [71, 73, 70, 56, 55, 97] ∨ data.take 6 = [71, 73, 70, 56, 57, 97] then
    some ("gif".toList)
  else if 12 ≤ data.length ∧ data.take 4 = [82, 73, 70, 70] ∧
      (data.drop 8).take 4 = [87, 69, 66, 80] then some ("webp".toList)
  else if 2 ≤ data.length ∧ data.take 2 = [66, 77] then some ("bmp".toList)
  else if 4 ≤ data.length ∧
      (data.take 4 = [77, 77, 0, 42] ∨ data.take 4 = [73, 73, 42, 0]) then
    some ("tiff".toList)
  else none

/-- Models `_guess_image_content_type`: an `image/*` header hint wins; else sniffed
magic bytes; else `mimetypes.guess_type` on the source hint, accepted only when
it is `image/*`. -/
def guess_image_content_type (std : Stdlib) (data : List Nat) (sourceHint : Str)
    (headerHint : Option Str) : Option Str :=
  let headerOk : Bool :=
    match headerHint with
    | some h => !h.isEmpty && startsWithStr h ("image/".toList)
    | none => false
  if headerOk then headerHint
  else
    match sniff_image_type data with
    | some kind => some ("image/".toList ++ kind)
    | none =>
      match std.guessType sourceHint with
      | some g => if startsWithStr g ("image/".toList) then some g else none
      | none => none

/-- Models `_build_image_data_url`: empty or oversize data and non-`image/*` content
types yield `None`; otherwise `data:<mime>;base64,<payload>`. The source also
receives an unused `source_hint` argument. -/
def build_image_data_url (env : ClientEnv) (std : Stdlib) (data : List Nat)
    (sourceHint : Str) (contentTypeHint : Option Str) : Option Str :=
  if data.isEmpty then none
  else if env.maxPayloadBytes < data.length then none
  else
    let contentType := lowerStr (stripStr (takeUntilSemicolon (contentTypeHint.getD [])))
    if ¬ startsWithStr contentType ("image/".toList) then none
    else some ("data:".toList ++ contentType ++ ";base64,".toList ++ std.b64encode data)

/-- Models `str(local_path)` for the source-hint arguments. -/
def pathStr (p : PathC) : Str := p.foldl (fun acc comp => acc ++ '/' :: comp) []

/-- The remote-URL tail of `_resolve_image_data_url` (everything after the
local-path branch has fallen through). The second component counts the network
requests performed. -/
def resolve_remote_data_url (env : ClientEnv) (std : Stdlib) (net : Net)
    (clean : Str) : Option Str × Nat :=
  if ¬ env.allowRemoteUrl then (none, 0)
  else if env.disableDataUrlFallback then (none, 0)
  else if ¬ is_allowed_remote_image_url env std clean then (none, 0)
  else
    let fetched := fetch_remote_image_bytes env std net clean
    let data := fetched.1
    let contentType := fetched.2.1
    let finalUrl := fetched.2.2
    if data.isEmpty then (none, 1)
    else
      let ct := lowerStr (stripStr (contentType.getD []))
      let sourceHint := pyOrStrD finalUrl clean
      if startsWithStr ct ("image/".toList) then
        (build_image_data_url env std data sourceHint (some ct), 1)
      else
        let ct2 :=
          match guess_image_content_type std data sourceHint (some ct) with
          | some g => g
          | none => ct
        if ct2.isEmpty then (none, 1)
        else (build_image_data_url env std data sourceHint (some ct2), 1)

/-- Models `_resolve_image_data_url`: pass through inline `data:image/` references;
try the local-path branch; otherwise the guarded remote branch. Never raises:
every rejection is `None`. The second component counts network requests. -/
def resolve_image_data_url (env : ClientEnv) (fs : Fs) (std : Stdlib) (net : Net)
    (imageUrl : Str) : Option Str × Nat :=
  let clean := stripStr imageUrl
  if clean.isEmpty then (none, 0)
  else if startsWithStr clean ("data:image/".toList) then (some clean, 0)
  else
    let localBranch :=
      match resolve_local_path env fs std clean with
      | some localPath => if fs.isFile localPath = some true then some localPath else none
      | none => none
    match localBranch with
    | some localPath =>
      (match fs.readBytes localPath with
       | none => (none, 0)
       | some data =>
         match guess_image_content_type std data (pathStr localPath) none with
         | none => (none, 0)
         | some ct =>
           (build_image_data_url env std data (pathStr localPath) (some ct), 0))
    | none => resolve_remote_data_url env std net clean

end Sociclaw.Client

namespace Sociclaw.Client

/-- If every canonicalization lands outside the allowed roots,
`_normalize_local_path` silently rejects every input. -/
theorem normalize_local_path_none (env : ClientEnv) (fs : Fs)
    (hroots : ∀ p cand, fs.canonicalize p = some cand →
      is_allowed_path env.allowedInputRoots cand = false)
    (p : Str) : normalize_local_path env fs p = none := by
  unfold normalize_local_path
  cases hc : fs.canonicalize p with
  | none => rfl
  | some cand =>
    cases hf : fs.isFile cand with
    | none => simp [hf]
    | some b =>
      cases b
      · simp [hf]
      · simp [hf, hroots p cand hc]

/-- Propagation of the previous fact through `_resolve_local_path`. -/
theorem resolve_local_path_none (env : ClientEnv) (fs : Fs) (std : Stdlib)
    (hroots : ∀ p cand, fs.canonicalize p = some cand →
      is_allowed_path env.allowedInputRoots cand = false)
    (input : Str) : resolve_local_path env fs std input = none := by
  unfold resolve_local_path
  dsimp only
  split
  · rfl
  · split
    · cases hf : std.fileUriPath (stripStr input) with
      | none => rfl
      | some fp => exact normalize_local_path_none env fs hroots fp
    · exact normalize_local_path_none env fs hroots _

/-- An empty allowlist makes `_host_matches_allowlist` reject every host. -/
theorem host_matches_allowlist_empty (env : ClientEnv)
    (hhosts : env.allowedUrlHosts = []) (h : Str) :
    host_matches_allowlist env h = false := by
  unfold host_matches_allowlist
  rw [hhosts]
  simp

/-- An empty allowlist makes `_is_allowed_remote_image_url` reject every URL. -/
theorem is_allowed_remote_image_url_empty_allowlist (env : ClientEnv) (std : Stdlib)
    (hhosts : env.allowedUrlHosts = []) (u : Str) :
    is_allowed_remote_image_url env std u = false := by
  unfold is_allowed_remote_image_url
  cases hp : std.parseUrl u with
  | none => rfl
  | some parsed =>
    dsimp only
    split
    · rfl
    · split
      · rfl
      · split
        · rfl
        · split
          · rfl
          · rw [host_matches_allowlist_empty env hhosts]
            simp

/-- When the remote branch is never entitled to fetch (`allow_remote_url`
off, fallback disabled, or the URL failing validation), the resolver answers
`None` and performs no network request, provided the reference is neither an
inline data URL nor a resolvable local file. -/
theorem resolve_image_data_url_no_fetch (env : ClientEnv) (fs : Fs) (std : Stdlib)
    (net : Net) (url : Str)
    (hdata : startsWithStr (stripStr url) ("data:image/".toList) = false)
    (hlocal : resolve_local_path env fs std (stripStr url) = none)
    (h : env.allowRemoteUrl = false ∨ env.disableDataUrlFallback = true ∨
         is_allowed_remote_image_url env std (stripStr url) = false) :
    resolve_image_data_url env fs std net url = (none, 0) := by
  unfold resolve_image_data_url
  dsimp only
  split
  · rfl
  · rw [hdata]
    simp only [Bool.false_eq_true, if_false]
    rw [hlocal]
    dsimp only
    unfold resolve_remote_data_url
    rcases h with h | h | h
    · simp [h]
    · simp [h]
    · simp [h]

/-- A URL whose parse is absent or whose scheme is not https fails
`_is_allowed_remote_image_url`. -/
theorem is_allowed_remote_image_url_bad_scheme (env : ClientEnv) (std : Stdlib)
    (u : Str)
    (hscheme : ∀ parts, std.parseUrl u = some parts →
      lowerStr parts.scheme ≠ "https".toList) :
    is_allowed_remote_image_url env std u = false := by
  unfold is_allowed_remote_image_url
  cases hp : std.parseUrl u with
  | none => rfl
  | some parsed =>
    have hne := hscheme parsed hp
    exact if_pos hne

/-- C1: a local filesystem reference whose canonicalized absolute path is not a
descendant of any configured allowed root is resolved to `None` by
`_resolve_image_data_url` (via `_normalize_local_path` and `_is_allowed_path`),
even when the file exists and holds a valid image, with no exception raised
(every failure is folded into the `Option` result) and no network request
performed. The reference being a filesystem path is captured by it not parsing
as an https URL and not being an inline data URL. -/
theorem resolve_rejects_local_path_outside_roots (env : ClientEnv) (fs : Fs)
    (std : Stdlib) (net : Net) (value : Str)
    (hdata : startsWithStr (stripStr value) ("data:image/".toList) = false)
    (hroots : ∀ p cand, fs.canonicalize p = some cand →
      is_allowed_path env.allowedInputRoots cand = false)
    (hscheme : ∀ parts, std.parseUrl (stripStr value) = some parts →
      lowerStr parts.scheme ≠ "https".toList) :
    resolve_image_data_url env fs std net value = (none, 0) := by
  refine resolve_image_data_url_no_fetch env fs std net value hdata
    (resolve_local_path_none env fs std hroots (stripStr value)) ?_
  right; right
  exact is_allowed_remote_image_url_bad_scheme env std (stripStr value) hscheme

/-- Witness for C1: `/etc/passwd` exists, is a readable valid PNG, but
canonicalizes outside the sole allowed root `<cwd>/home`; the resolver answers
`None` with no network request. -/
theorem resolve_rejects_local_path_outside_roots_witness :
    resolve_image_data_url
      ⟨true, false, [["home".toList]], ["example.com".toList], 10485760, 3⟩
      ⟨fun _ => some ["etc".toList, "passwd".toList], fun _ => some true,
        fun _ => some [137, 80, 78, 71, 13, 10, 26, 10]⟩
      ⟨fun _ => none, fun _ => none, fun _ => none, fun _ => []⟩
      ⟨fun _ => none⟩
      ("/etc/passwd".toList) = (none, 0) :=
  resolve_rejects_local_path_outside_roots _ _ _ _ _
    (by decide)
    (fun p cand h => by cases h; decide)
    (fun parts h => Option.noConfusion h)

/-- A URL whose normalized host is empty, `localhost`, `0.0.0.0` or a `.local`
name fails `_is_allowed_remote_image_url`. -/
theorem is_allowed_remote_image_url_host_denied (env : ClientEnv) (std : Stdlib)
    (u : Str) (parsed : UrlParts)
    (hp : std.parseUrl u = some parsed)
    (hh : urlHostNorm parsed = [] ∨ urlHostNorm parsed = "localhost".toList ∨
          urlHostNorm parsed = "0.0.0.0".toList ∨
          endsWithStr (urlHostNorm parsed) (".local".toList) = true) :
    is_allowed_remote_image_url env std u = false := by
  unfold is_allowed_remote_image_url
  rw [hp]
  simp only []
  by_cases hs : lowerStr parsed.scheme ≠ "https".toList
  · exact if_pos hs
  · rw [if_neg hs]
    rcases hh with hh | hh | hh | hh
    · rw [hh]; rfl
    · rw [hh]; rfl
    · rw [hh]; rfl
    · by_cases he : List.isEmpty (urlHostNorm parsed) = true
      · exact if_pos he
      · rw [if_neg he, if_pos (by rw [hh]; simp)]

/-- A URL whose normalized host is a blocked IPv4 literal fails
`_is_allowed_remote_image_url`. -/
theorem is_allowed_remote_image_url_blocked_ip (env : ClientEnv) (std : Stdlib)
    (u : Str) (parsed : UrlParts) (ip : IPv4)
    (hp : std.parseUrl u = some parsed)
    (hip : parseIPv4 (urlHostNorm parsed) = some ip)
    (hb : ipv4Blocked ip = true) :
    is_allowed_remote_image_url env std u = false := by
  unfold is_allowed_remote_image_url
  rw [hp]
  simp only []
  by_cases hs : lowerStr parsed.scheme ≠ "https".toList
  · exact if_pos hs
  · rw [if_neg hs]
    by_cases he : List.isEmpty (urlHostNorm parsed) = true
    · exact if_pos he
    · rw [if_neg he]
      by_cases hn : (decide (urlHostNorm parsed = "localhost".toList) ||
          decide (urlHostNorm parsed = "0.0.0.0".toList) ||
          endsWithStr (urlHostNorm parsed) (".local".toList)) = true
      · exact if_pos hn
      · rw [if_neg hn]
        simp [hip, hb]

/-- C2: for a remote URL reference (one that is not an inline data URL and
does not resolve to a local file), the resolver returns `None` when remote
fetch is disabled, when the host allowlist is empty (regardless of the enable
flag), when the scheme is not https, when the host is empty / `localhost` /
`0.0.0.0` / a `.local` name, or when the host is a blocked
(private/loopback/link-local/reserved/multicast/unspecified) IPv4 literal —
and in every one of these cases no network request is performed (the request
counter is 0). -/
theorem remote_url_guard_rejections (env : ClientEnv) (fs : Fs) (std : Stdlib)
    (net : Net) (url : Str)
    (hdata : startsWithStr (stripStr url) ("data:image/".toList) = false)
    (hlocal : resolve_local_path env fs std (stripStr url) = none) :
    (env.allowRemoteUrl = false →
      resolve_image_data_url env fs std net url = (none, 0)) ∧
    (env.allowedUrlHosts = [] →
      resolve_image_data_url env fs std net url = (none, 0)) ∧
    ((∀ parts, std.parseUrl (stripStr url) = some parts →
        lowerStr parts.scheme ≠ "https".toList) →
      resolve_image_data_url env fs std net url = (none, 0)) ∧
    (∀ parts, std.parseUrl (stripStr url) = some parts →
      (urlHostNorm parts = [] ∨ urlHostNorm parts = "localhost".toList ∨
       urlHostNorm parts = "0.0.0.0".toList ∨
       endsWithStr (urlHostNorm parts) (".local".toList) = true) →
      resolve_image_data_url env fs std net url = (none, 0)) ∧
    (∀ parts ip, std.parseUrl (stripStr url) = some parts →
      parseIPv4 (urlHostNorm parts) = some ip → ipv4Blocked ip = true →
      resolve_image_data_url env fs std net url = (none, 0)) := by
  refine ⟨?_, ?_, ?_, ?_, ?_⟩
  · intro h
    exact resolve_image_data_url_no_fetch env fs std net url hdata hlocal (Or.inl h)
  · intro h
    exact resolve_image_data_url_no_fetch env fs std net url hdata hlocal
      (Or.inr (Or.inr (is_allowed_remote_image_url_empty_allowlist env std h _)))
  · intro h
    exact resolve_image_data_url_no_fetch env fs std net url hdata hlocal
      (Or.inr (Or.inr (is_allowed_remote_image_url_bad_scheme env std _ h)))
  · intro parts hp hh
    exact resolve_image_data_url_no_fetch env fs std net url hdata hlocal
      (Or.inr (Or.inr (is_allowed_remote_image_url_host_denied env std _ parts hp hh)))
  · intro parts ip hp hip hb
    exact resolve_image_data_url_no_fetch env fs std net url hdata hlocal
      (Or.inr (Or.inr (is_allowed_remote_image_url_blocked_ip env std _ parts ip hp hip hb)))

/-- Witness for C2: with remote fetch disabled and an empty allowlist, an
`http://localhost` reference that is no local file resolves to `None` with no
network request. -/
theorem remote_url_guard_rejections_witness :
    resolve_image_data_url
      ⟨false, false, [], [], 10, 3⟩
      ⟨fun _ => none, fun _ => none, fun _ => none⟩
      ⟨fun _ => some ⟨"http".toList, some ("localhost".toList)⟩,
        fun _ => none, fun _ => none, fun _ => []⟩
      ⟨fun _ => none⟩
      ("http://localhost/x".toList) = (none, 0) :=
  (remote_url_guard_rejections _ _ _ _ _ (by decide) (by rfl)).1 rfl

/-- A response that followed more redirects than the configured cap is
discarded by `_fetch_remote_image_bytes`. -/
theorem fetch_remote_image_bytes_redirect_cap (env : ClientEnv) (std : Stdlib)
    (net : Net) (url : Str) (resp : HttpResponse)
    (hget : net.get url = some resp)
    (hh : env.maxRemoteRedirects < resp.historyLen) :
    fetch_remote_image_bytes env std net url = ([], none, none) := by
  unfold fetch_remote_image_bytes
  rw [hget]
  simp only []
  by_cases hok : resp.ok = true
  · rw [if_neg (by simp [hok]), if_pos hh]
  · rw [if_pos (by simp at hok; simp [hok])]

/-- A response whose final URL (after redirects) fails
`_is_allowed_remote_image_url` — while the originally requested URL passed it —
is discarded by `_fetch_remote_image_bytes`. -/
theorem fetch_remote_image_bytes_final_denied (env : ClientEnv) (std : Stdlib)
    (net : Net) (url : Str) (resp : HttpResponse)
    (hget : net.get url = some resp)
    (hurl : is_allowed_remote_image_url env std url = true)
    (hfinal : is_allowed_remote_image_url env std
        (if resp.finalUrl.isEmpty then url else resp.finalUrl) = false) :
    fetch_remote_image_bytes env std net url = ([], none, none) := by
  unfold fetch_remote_image_bytes
  rw [hget]
  simp only []
  by_cases hok : resp.ok = true
  · rw [if_neg (by simp [hok])]
    by_cases hh : env.maxRemoteRedirects < resp.historyLen
    · rw [if_pos hh]
    · rw [if_neg hh]
      have hne : (if resp.finalUrl.isEmpty then url else resp.finalUrl) ≠ url := by
        intro he
        rw [he, hurl] at hfinal
        exact Bool.noConfusion hfinal
      rw [if_pos ⟨hne, by intro h; rw [h] at hfinal; exact Bool.noConfusion hfinal⟩]
  · rw [if_pos (by simp at hok; simp [hok])]

/-- When the remote branch is entitled to fetch but the fetch comes back
empty, the resolver answers `None` after exactly one network request. -/
theorem resolve_image_data_url_fetch_empty (env : ClientEnv) (fs : Fs)
    (std : Stdlib) (net : Net) (url : Str)
    (hdata : startsWithStr (stripStr url) ("data:image/".toList) = false)
    (hlocal : resolve_local_path env fs std (stripStr url) = none)
    (hclean : (stripStr url).isEmpty = false)
    (henable : env.allowRemoteUrl = true)
    (hdisable : env.disableDataUrlFallback = false)
    (hallow : is_allowed_remote_image_url env std (stripStr url) = true)
    (hfetch : fetch_remote_image_bytes env std net (stripStr url) = ([], none, none)) :
    resolve_image_data_url env fs std net url = (none, 1) := by
  unfold resolve_image_data_url
  dsimp only
  rw [if_neg (by simp [hclean]), hdata]
  simp only [Bool.false_eq_true, if_false]
  rw [hlocal]
  dsimp only
  unfold resolve_remote_data_url
  rw [if_neg (by simp [henable]), if_neg (by simp [hdisable]),
    if_neg (by simp [hallow]), hfetch]
  rfl

/-- C3: for a remote fetch whose originally requested URL passed validation,
the final URL reached after redirects is re-validated against the same rules;
if it fails, the fetch yields empty bytes and the resolver answers `None`
(after its single network request); the same holds when the response followed
more redirects than the configured cap; and any fetch that returns non-empty
bytes followed at most the configured maximum number of redirects. -/
theorem redirect_revalidation_rejects (env : ClientEnv) (fs : Fs) (std : Stdlib)
    (net : Net) (url : Str) (resp : HttpResponse)
    (hdata : startsWithStr (stripStr url) ("data:image/".toList) = false)
    (hlocal : resolve_local_path env fs std (stripStr url) = none)
    (hclean : (stripStr url).isEmpty = false)
    (henable : env.allowRemoteUrl = true)
    (hdisable : env.disableDataUrlFallback = false)
    (hallow : is_allowed_remote_image_url env std (stripStr url) = true)
    (hget : net.get (stripStr url) = some resp) :
    (is_allowed_remote_image_url env std
        (if resp.finalUrl.isEmpty then stripStr url else resp.finalUrl) = false →
      fetch_remote_image_bytes env std net (stripStr url) = ([], none, none) ∧
      resolve_image_data_url env fs std net url = (none, 1)) ∧
    (env.maxRemoteRedirects < resp.historyLen →
      fetch_remote_image_bytes env std net (stripStr url) = ([], none, none) ∧
      resolve_image_data_url env fs std net url = (none, 1)) ∧
    (∀ d c f, fetch_remote_image_bytes env std net (stripStr url) = (d, c, f) →
      d ≠ [] → resp.historyLen ≤ env.maxRemoteRedirects) := by
  refine ⟨?_, ?_, ?_⟩
  · intro hfinal
    have hf := fetch_remote_image_bytes_final_denied env std net (stripStr url)
      resp hget hallow hfinal
    exact ⟨hf, resolve_image_data_url_fetch_empty env fs std net url hdata hlocal
      hclean henable hdisable hallow hf⟩
  · intro hh
    have hf := fetch_remote_image_bytes_redirect_cap env std net (stripStr url)
      resp hget hh
    exact ⟨hf, resolve_image_data_url_fetch_empty env fs std net url hdata hlocal
      hclean henable hdisable hallow hf⟩
  · intro d c f hf hd
    by_contra hnot
    have hh : env.maxRemoteRedirects < resp.historyLen := by omega
    have := fetch_remote_image_bytes_redirect_cap env std net (stripStr url)
      resp hget hh
    rw [this] at hf
    exact hd (by injection hf with h1 _; exact h1.symm)

/-- Witness for C3: `https://example.com/a` is allowed, the response redirects
to `https://evil.example.org/b`, which fails re-validation: the fetch is
discarded and the resolver answers `None` after its one request. -/
theorem redirect_revalidation_rejects_witness :
    fetch_remote_image_bytes
      ⟨true, false, [], ["example.com".toList], 100, 3⟩
      ⟨fun s => if s = "https://example.com/a".toList then
          some ⟨"https".toList, some ("example.com".toList)⟩
        else some ⟨"https".toList, some ("evil.example.org".toList)⟩,
        fun _ => none, fun _ => none, fun _ => []⟩
      ⟨fun _ => some ⟨true, 0, "https://evil.example.org/b".toList, [], [[1, 2, 3]]⟩⟩
      (stripStr ("https://example.com/a".toList)) = ([], none, none) ∧
    resolve_image_data_url
      ⟨true, false, [], ["example.com".toList], 100, 3⟩
      ⟨fun _ => none, fun _ => none, fun _ => none⟩
      ⟨fun s => if s = "https://example.com/a".toList then
          some ⟨"https".toList, some ("example.com".toList)⟩
        else some ⟨"https".toList, some ("evil.example.org".toList)⟩,
        fun _ => none, fun _ => none, fun _ => []⟩
      ⟨fun _ => some ⟨true, 0, "https://evil.example.org/b".toList, [], [[1, 2, 3]]⟩⟩
      ("https://example.com/a".toList) = (none, 1) :=
  (redirect_revalidation_rejects _ _ _ _ _ _ (by decide) (by rfl) (by decide)
    rfl rfl (by decide) rfl).1 (by decide)

namespace Sociclaw.Client

open Sociclaw

/-! ## `create_job`: payload negotiation -/

/-- A JSON object payload, as an insertion-ordered association list
(`dict` with string values at the fields the client writes). -/
abbrev Payload := List (Str × Str)

/-- Models `d[key] = v`: replace in place when the key exists, else append. -/
def updateAssoc (p : Payload) (key v : Str) : Payload :=
  if p.any (fun kv => decide (kv.1 = key)) then
    p.map (fun kv => if kv.1 = key then (key, v) else kv)
  else p ++ [(key, v)]

/-- Models `d.pop(key, None)`. -/
def removeKey (p : Payload) (key : Str) : Payload :=
  p.filter (fun kv => decide (¬ kv.1 = key))

/-- Models `d.get(key)`. -/
def lookupAssoc (p : Payload) (key : Str) : Option Str :=
  match p with
  | [] => none
  | kv :: t => if kv.1 = key then some kv.2 else lookupAssoc t key

/-- The response to one POST submission: status code, body text, and the two
job-identifier fields the client reads from `resp.json()`. -/
structure PostResponse where
  status : Nat
  body : Str
  jobIdField : Option Str
  idField : Option Str

/-- Models `requests.Response.ok`: status code below 400. -/
def respOk (r : PostResponse) : Bool := r.status < 400

/-- The body tokens `_should_retry_with_alternate_payload` looks for. -/
def IMAGE_TOKENS : List Str :=
  ["image input".toList, "image_url".toList, "image_data_url".toList,
   "missing image".toList, "requires an image".toList]

/-- Models `_should_retry_with_alternate_payload`: only 400/422 responses whose
lower-cased body contains an image-input-shaped token. -/
def should_retry_with_alternate_payload (r : PostResponse) : Bool :=
  if r.status ≠ 400 ∧ r.status ≠ 422 then false
  else IMAGE_TOKENS.any fun tok => containsSub tok (lowerStr r.body)

/-- The `base_payload` built at the top of `create_job`: prompt and model
always; `image_url`, `webhook_url`, `user_id` only when truthy; then
`update(extra)`. -/
def basePayload (prompt model : Str) (imageUrl webhookUrl userId : Option Str)
    (extra : Payload) : Payload :=
  let p0 : Payload := [("prompt".toList, prompt), ("model".toList, model)]
  let p1 := if pyTruthy imageUrl then p0 ++ [("image_url".toList, imageUrl.getD [])] else p0
  let p2 := if pyTruthy webhookUrl then p1 ++ [("webhook_url".toList, webhookUrl.getD [])] else p1
  let p3 := if pyTruthy userId then p2 ++ [("user_id".toList, userId.getD [])] else p2
  extra.foldl (fun acc kv => updateAssoc acc kv.1 kv.2) p3

/-- Models `payload_candidates`: the base payload alone, or — when an image reference
is present and resolves to a truthy inline data URL — the base payload, then
the base with the inline representation added alongside, then the base with
the inline representation replacing the original field. -/
def payloadCandidates (env : ClientEnv) (fs : Fs) (std : Stdlib) (net : Net)
    (prompt model : Str) (imageUrl webhookUrl userId : Option Str)
    (extra : Payload) : List Payload :=
  let base := basePayload prompt model imageUrl webhookUrl userId extra
  if pyTruthy imageUrl then
    match (resolve_image_data_url env fs std net (imageUrl.getD [])).1 with
    | some d =>
      if d.isEmpty then [base]
      else
        [base,
         updateAssoc base ("image_data_url".toList) d,
         updateAssoc (removeKey base ("image_url".toList)) ("image_data_url".toList) d]
    | none => [base]
  else [base]

/-- The error channel of `create_job`: `raise_for_status` on a non-ok response
(it always raises there, since non-ok means status ≥ 400), or the trailing
`RuntimeError` for an empty candidate list. -/
inductive CreateJobError where
  | httpStatus (status : Nat) (body : Str)
  | noResponse
deriving DecidableEq

/-- The submission loop of `create_job`, re-indexed structurally:
`remaining` counts the candidates not yet tried, so the source's
`has_fallback = idx < len(candidates) - 1` becomes `0 < remaining - 1`.
Returns the index of the accepted submission (whose response `.json()` is the
function's value) or the raised error, along with the number of submissions
performed. -/
def createJobGo (post : Nat → PostResponse) :
    (remaining idx : Nat) → Except CreateJobError Nat × Nat
  | 0, idx => (.error .noResponse, idx)
  | r + 1, idx =>
    let resp := post idx
    if respOk resp then (.ok idx, idx + 1)
    else if 0 < r ∧ should_retry_with_alternate_payload resp then
      createJobGo post r (idx + 1)
    else (.error (.httpStatus resp.status resp.body), idx + 1)

/-- Models `create_job`: submit the payload candidates in order with the negotiation
rule above. -/
def create_job (env : ClientEnv) (fs : Fs) (std : Stdlib) (net : Net)
    (prompt model : Str) (imageUrl webhookUrl userId : Option Str)
    (extra : Payload) (post : Nat → PostResponse) :
    Except CreateJobError Nat × Nat :=
  createJobGo post
    (payloadCandidates env fs std net prompt model imageUrl webhookUrl userId extra).length 0

end Sociclaw.Client

namespace Sociclaw.Client

open Sociclaw

/-- Field lookup distributes over payload concatenation. -/
theorem lookupAssoc_append (xs ys : Payload) (k : Str) :
    lookupAssoc (xs ++ ys) k =
      (match lookupAssoc xs k with
       | some v => some v
       | none => lookupAssoc ys k) := by
  induction xs with
  | nil => simp [lookupAssoc]
  | cons kv t ih =>
    by_cases h : kv.1 = k
    · simp [lookupAssoc, h]
    · simp [lookupAssoc, h, ih]

/-- A payload containing no entry for `k` looks `k` up to nothing. -/
theorem lookupAssoc_none_of_any_false (p : Payload) (k : Str)
    (h : p.any (fun kv => decide (kv.1 = k)) = false) : lookupAssoc p k = none := by
  induction p with
  | nil => rfl
  | cons kv t ih =>
    simp only [List.any_cons, Bool.or_eq_false_iff, decide_eq_false_iff_not] at h
    simp [lookupAssoc, h.1, ih h.2]

/-- After the in-place rewrite of `updateAssoc`, the key maps to the new value
(provided some entry carried the key, which is what selects that branch). -/
theorem lookupAssoc_map_update (p : Payload) (k v : Str)
    (h : p.any (fun kv => decide (kv.1 = k)) = true) :
    lookupAssoc (p.map (fun kv => if kv.1 = k then (k, v) else kv)) k = some v := by
  induction p with
  | nil => simp at h
  | cons kv t ih =>
    by_cases hk : kv.1 = k
    · simp [lookupAssoc, hk]
    · simp only [List.any_cons, decide_eq_true_eq, Bool.or_eq_true_iff] at h
      rcases h with h | h
      · exact absurd h hk
      · simp [lookupAssoc, hk, ih h]

/-- Models `d[k] = v` makes `d.get(k)` answer `v`. -/
theorem lookupAssoc_updateAssoc_self (p : Payload) (k v : Str) :
    lookupAssoc (updateAssoc p k v) k = some v := by
  unfold updateAssoc
  by_cases h : p.any (fun kv => decide (kv.1 = k)) = true
  · rw [if_pos h]
    exact lookupAssoc_map_update p k v h
  · rw [if_neg h, lookupAssoc_append,
      lookupAssoc_none_of_any_false p k (by rw [← Bool.not_eq_true]; exact h)]
    simp [lookupAssoc]

/-- The in-place rewrite of `updateAssoc` leaves other keys untouched. -/
theorem lookupAssoc_map_update_other (t : Payload) (k1 v k : Str) (hne : k1 ≠ k) :
    lookupAssoc (t.map (fun kv => if kv.1 = k1 then (k1, v) else kv)) k =
      lookupAssoc t k := by
  induction t with
  | nil => rfl
  | cons kv t ih =>
    by_cases hk : kv.1 = k1
    · have h2 : kv.1 ≠ k := by rw [hk]; exact hne
      simp [lookupAssoc, hk, hne, h2, Ne.symm hne, ih]
    · by_cases hk2 : kv.1 = k
      · simp [lookupAssoc, hk, hk2, Ne.symm hne]
      · simp [lookupAssoc, hk, hk2, ih]

/-- Models `d[k1] = v` leaves other keys untouched. -/
theorem lookupAssoc_updateAssoc_other (p : Payload) (k1 v k : Str) (hne : k1 ≠ k) :
    lookupAssoc (updateAssoc p k1 v) k = lookupAssoc p k := by
  unfold updateAssoc
  split
  · exact lookupAssoc_map_update_other p k1 v k hne
  · rw [lookupAssoc_append]
    cases hp : lookupAssoc p k with
    | some v2 => rfl
    | none => simp [lookupAssoc, hne]

/-- Models `d.pop(k)` removes the key. -/
theorem lookupAssoc_removeKey_self (p : Payload) (k : Str) :
    lookupAssoc (removeKey p k) k = none := by
  induction p with
  | nil => rfl
  | cons kv t ih =>
    by_cases hk : kv.1 = k
    · simpa [removeKey, List.filter_cons, hk] using ih
    · simpa [removeKey, List.filter_cons, lookupAssoc, hk] using ih

/-- Models `d.pop(k1)` leaves other keys untouched. -/
theorem lookupAssoc_removeKey_other (p : Payload) (k1 k : Str) (hne : k1 ≠ k) :
    lookupAssoc (removeKey p k1) k = lookupAssoc p k := by
  induction p with
  | nil => rfl
  | cons kv t ih =>
    by_cases hk : kv.1 = k1
    · have h2 : kv.1 ≠ k := by rw [hk]; exact hne
      simpa [removeKey, List.filter_cons, lookupAssoc, hk, h2, hne,
        Ne.symm hne] using ih
    · by_cases hk2 : kv.1 = k
      · simp [removeKey, List.filter_cons, lookupAssoc, hk, hk2, Ne.symm hne]
      · simpa [removeKey, List.filter_cons, lookupAssoc, hk, hk2] using ih

/-- The base payload carries the original `image_url` field when the image
reference is truthy. -/
theorem basePayload_image_url (prompt model : Str)
    (imageUrl webhookUrl userId : Option Str) (himg : pyTruthy imageUrl = true) :
    lookupAssoc (basePayload prompt model imageUrl webhookUrl userId [])
      ("image_url".toList) = some (imageUrl.getD []) := by
  cases hw : pyTruthy webhookUrl <;> cases hu : pyTruthy userId <;>
    simp [basePayload, lookupAssoc, himg, hw, hu]

/-- The base payload never carries `image_data_url`. -/
theorem basePayload_no_image_data_url (prompt model : Str)
    (imageUrl webhookUrl userId : Option Str) :
    lookupAssoc (basePayload prompt model imageUrl webhookUrl userId [])
      ("image_data_url".toList) = none := by
  cases hi : pyTruthy imageUrl <;> cases hw : pyTruthy webhookUrl <;>
    cases hu : pyTruthy userId <;>
    simp [basePayload, lookupAssoc, hi, hw, hu]

end Sociclaw.Client

namespace Sociclaw.Client

open Sociclaw

/-- C7: when an image reference resolved to an inline data URL, the first
submission carries the original `image_url` field only; the second candidate
adds `image_data_url` alongside it and the third replaces `image_url` with it;
a follow-up submission happens exactly when the previous response is non-ok
with a 400/422 status whose body carries an image-input token and an untried
candidate remains (the six cases below enumerate every run of the three-way
negotiation); any other non-success response — a 401 in particular — is raised
immediately after a single submission. -/
theorem create_job_payload_negotiation (env : ClientEnv) (fs : Fs) (std : Stdlib)
    (net : Net) (prompt model : Str) (imageUrl webhookUrl userId : Option Str)
    (post : Nat → PostResponse) (d : Str)
    (himg : pyTruthy imageUrl = true)
    (hres : (resolve_image_data_url env fs std net (imageUrl.getD [])).1 = some d)
    (hd : d.isEmpty = false) :
    (payloadCandidates env fs std net prompt model imageUrl webhookUrl userId [] =
      [basePayload prompt model imageUrl webhookUrl userId [],
       updateAssoc (basePayload prompt model imageUrl webhookUrl userId [])
         ("image_data_url".toList) d,
       updateAssoc (removeKey (basePayload prompt model imageUrl webhookUrl userId [])
         ("image_url".toList)) ("image_data_url".toList) d]) ∧
    (lookupAssoc (basePayload prompt model imageUrl webhookUrl userId [])
        ("image_url".toList) = some (imageUrl.getD []) ∧
      lookupAssoc (basePayload prompt model imageUrl webhookUrl userId [])
        ("image_data_url".toList) = none) ∧
    (lookupAssoc (updateAssoc (basePayload prompt model imageUrl webhookUrl userId [])
        ("image_data_url".toList) d) ("image_url".toList) = some (imageUrl.getD []) ∧
      lookupAssoc (updateAssoc (basePayload prompt model imageUrl webhookUrl userId [])
        ("image_data_url".toList) d) ("image_data_url".toList) = some d) ∧
    (lookupAssoc (updateAssoc (removeKey (basePayload prompt model imageUrl webhookUrl userId [])
        ("image_url".toList)) ("image_data_url".toList) d) ("image_url".toList) = none ∧
      lookupAssoc (updateAssoc (removeKey (basePayload prompt model imageUrl webhookUrl userId [])
        ("image_url".toList)) ("image_data_url".toList) d) ("image_data_url".toList) = some d) ∧
    (respOk (post 0) = true →
      create_job env fs std net prompt model imageUrl webhookUrl userId [] post = (.ok 0, 1)) ∧
    (respOk (post 0) = false → should_retry_with_alternate_payload (post 0) = false →
      create_job env fs std net prompt model imageUrl webhookUrl userId [] post =
        (.error (.httpStatus (post 0).status (post 0).body), 1)) ∧
    (respOk (post 0) = false → should_retry_with_alternate_payload (post 0) = true →
      respOk (post 1) = true →
      create_job env fs std net prompt model imageUrl webhookUrl userId [] post = (.ok 1, 2)) ∧
    (respOk (post 0) = false → should_retry_with_alternate_payload (post 0) = true →
      respOk (post 1) = false → should_retry_with_alternate_payload (post 1) = false →
      create_job env fs std net prompt model imageUrl webhookUrl userId [] post =
        (.error (.httpStatus (post 1).status (post 1).body), 2)) ∧
    (respOk (post 0) = false → should_retry_with_alternate_payload (post 0) = true →
      respOk (post 1) = false → should_retry_with_alternate_payload (post 1) = true →
      respOk (post 2) = true →
      create_job env fs std net prompt model imageUrl webhookUrl userId [] post = (.ok 2, 3)) ∧
    (respOk (post 0) = false → should_retry_with_alternate_payload (post 0) = true →
      respOk (post 1) = false → should_retry_with_alternate_payload (post 1) = true →
      respOk (post 2) = false →
      create_job env fs std net prompt model imageUrl webhookUrl userId [] post =
        (.error (.httpStatus (post 2).status (post 2).body), 3)) ∧
    ((post 0).status = 401 →
      create_job env fs std net prompt model imageUrl webhookUrl userId [] post =
        (.error (.httpStatus 401 (post 0).body), 1)) := by
  have hcands : payloadCandidates env fs std net prompt model imageUrl webhookUrl userId [] =
      [basePayload prompt model imageUrl webhookUrl userId [],
       updateAssoc (basePayload prompt model imageUrl webhookUrl userId [])
         ("image_data_url".toList) d,
       updateAssoc (removeKey (basePayload prompt model imageUrl webhookUrl userId [])
         ("image_url".toList)) ("image_data_url".toList) d] := by
    unfold payloadCandidates
    simp [himg, hres, hd]
  have hCJ : create_job env fs std net prompt model imageUrl webhookUrl userId [] post =
      createJobGo post 3 0 := by
    unfold create_job
    rw [hcands]
    rfl
  have e3 : createJobGo post 3 0 =
      (if respOk (post 0) then ((.ok 0 : Except CreateJobError Nat), 1)
       else if 0 < 2 ∧ should_retry_with_alternate_payload (post 0) then
         createJobGo post 2 1
       else (.error (.httpStatus (post 0).status (post 0).body), 1)) := rfl
  have e2 : createJobGo post 2 1 =
      (if respOk (post 1) then ((.ok 1 : Except CreateJobError Nat), 2)
       else if 0 < 1 ∧ should_retry_with_alternate_payload (post 1) then
         createJobGo post 1 2
       else (.error (.httpStatus (post 1).status (post 1).body), 2)) := rfl
  have e1 : createJobGo post 1 2 =
      (if respOk (post 2) then ((.ok 2 : Except CreateJobError Nat), 3)
       else if 0 < 0 ∧ should_retry_with_alternate_payload (post 2) then
         createJobGo post 0 3
       else (.error (.httpStatus (post 2).status (post 2).body), 3)) := rfl
  refine ⟨hcands, ⟨?_, ?_⟩, ⟨?_, ?_⟩, ⟨?_, ?_⟩, ?_, ?_, ?_, ?_, ?_, ?_, ?_⟩
  · exact basePayload_image_url prompt model imageUrl webhookUrl userId himg
  · exact basePayload_no_image_data_url prompt model imageUrl webhookUrl userId
  · rw [lookupAssoc_updateAssoc_other _ _ _ _ (by decide)]
    exact basePayload_image_url prompt model imageUrl webhookUrl userId himg
  · exact lookupAssoc_updateAssoc_self _ _ _
  · rw [lookupAssoc_updateAssoc_other _ _ _ _ (by decide)]
    exact lookupAssoc_removeKey_self _ _
  · exact lookupAssoc_updateAssoc_self _ _ _
  · intro hok
    rw [hCJ, e3, if_pos hok]
  · intro hok hre
    rw [hCJ, e3, if_neg (by simp [hok]), if_neg (by simp [hre])]
  · intro hok0 hre0 hok1
    rw [hCJ, e3, if_neg (by simp [hok0]), if_pos ⟨by norm_num, hre0⟩, e2, if_pos hok1]
  · intro hok0 hre0 hok1 hre1
    rw [hCJ, e3, if_neg (by simp [hok0]), if_pos ⟨by norm_num, hre0⟩, e2,
      if_neg (by simp [hok1]), if_neg (by simp [hre1])]
  · intro hok0 hre0 hok1 hre1 hok2
    rw [hCJ, e3, if_neg (by simp [hok0]), if_pos ⟨by norm_num, hre0⟩, e2,
      if_neg (by simp [hok1]), if_pos ⟨by norm_num, hre1⟩, e1, if_pos hok2]
  · intro hok0 hre0 hok1 hre1 hok2
    rw [hCJ, e3, if_neg (by simp [hok0]), if_pos ⟨by norm_num, hre0⟩, e2,
      if_neg (by simp [hok1]), if_pos ⟨by norm_num, hre1⟩, e1,
      if_neg (by simp [hok2]), if_neg (by simp)]
  · intro h401
    have hok : respOk (post 0) = false := by simp [respOk, h401]
    have hre : should_retry_with_alternate_payload (post 0) = false := by
      simp [should_retry_with_alternate_payload, h401]
    rw [hCJ, e3, if_neg (by simp [hok]), if_neg (by simp [hre]), h401]

end Sociclaw.Client

namespace Sociclaw.Client

/-- Witness for C7: with an inline image reference (which resolves to itself)
and an upstream that always answers 401, `create_job` raises after exactly one
submission, trying no alternate payload. -/
theorem create_job_payload_negotiation_witness :
    create_job
      ⟨false, false, [], [], 10, 3⟩
      ⟨fun _ => none, fun _ => none, fun _ => none⟩
      ⟨fun _ => none, fun _ => none, fun _ => none, fun _ => []⟩
      ⟨fun _ => none⟩
      ("p".toList) ("m".toList)
      (some ("data:image/png;base64,AAAA".toList)) none none []
      (fun _ => ⟨401, "unauthorized".toList, none, none⟩) =
      (.error (.httpStatus 401 ("unauthorized".toList)), 1) :=
  (create_job_payload_negotiation _ _ _ _ _ _ _ _ _ _
    ("data:image/png;base64,AAAA".toList)
    (by decide) (by decide) (by decide)).2.2.2.2.2.2.2.2.2.2 rfl

end Sociclaw.Client

namespace Sociclaw.Client

open Sociclaw

/-! ## `wait_for_job` and `generate_image` (job client) -/

/-- One `get_job` response body: the `status` string and the two result-URL
fields `wait_for_job` reads (`none` models an absent key). -/
structure JobPayload where
  status : Str
  resultUrlField : Option Str
  urlField : Option Str
deriving DecidableEq

/-- The `ImageJobResult` dataclass. -/
structure ImageJobResult where
  job_id : Str
  status : Str
  result_url : Option Str
  raw : Option JobPayload
deriving DecidableEq

/-- The two raised terminal outcomes of `wait_for_job`: the `RuntimeError` for
a failed job and the `TimeoutError`, both carrying the last payload seen. -/
inductive WaitError where
  | jobFailed (jobId : Str) (last : Option JobPayload)
  | timedOut (jobId : Str) (last : Option JobPayload)
deriving DecidableEq

/-- Models `str(last.get("status", "")).lower().strip()`. -/
def statusNorm (p : JobPayload) : Str := stripStr (lowerStr p.status)

/-- Models `status in {"failed", "error", "canceled", "cancelled"}`. -/
def terminalFailure (st : Str) : Bool :=
  st = "failed".toList || st = "error".toList ||
  st = "canceled".toList || st = "cancelled".toList

/-- The polling loop of `wait_for_job`. Time is discrete: the deadline is
`timeout_seconds` ahead of the start, and each `time.sleep(interval)` advances
the clock by `interval` (the model charges no time to `get_job` itself).
`getJob k` is the k-th poll's response, `t` the clock, `last` the last payload
seen. `fuel` only forces termination in Lean; `none` on fuel exhaustion
corresponds to the unbounded spinning the source would do with
`poll_interval_seconds = 0`, and a sufficient fuel is supplied by
`wait_for_job` for every positive interval. -/
def waitForJobGo (getJob : Nat → JobPayload) (deadline interval : Nat) (jobId : Str) :
    (fuel k t : Nat) → Option JobPayload → Option (Except WaitError ImageJobResult)
  | 0, _, _, _ => none
  | fuel + 1, k, t, last =>
    if t < deadline then
      let p := getJob k
      let st := statusNorm p
      if st = "completed".toList then
        some (.ok ⟨jobId, st, pyOrStr p.resultUrlField p.urlField, some p⟩)
      else if terminalFailure st then some (.error (.jobFailed jobId (some p)))
      else waitForJobGo getJob deadline interval jobId fuel (k + 1) (t + interval) (some p)
    else some (.error (.timedOut jobId last))

/-- Models `wait_for_job(job_id, timeout_seconds, poll_interval_seconds)`. -/
def wait_for_job (getJob : Nat → JobPayload) (timeout interval : Nat) (jobId : Str) :
    Option (Except WaitError ImageJobResult) :=
  waitForJobGo getJob timeout interval jobId (timeout + 1) 0 0 none

/-- The error channel of the job client's `generate_image`: a create failure,
the `RuntimeError` for a missing job id, a wait failure, and the
`RuntimeError` for a completed job with no result URL. -/
inductive ClientError where
  | createFailed (e : CreateJobError)
  | missingJobId
  | waitFailed (e : WaitError)
  | noResultUrl (raw : Option JobPayload)
deriving DecidableEq

/-- Models `ImageProviderClient.generate_image`: compose `create_job` (whose accepted
submission's response `.json()` is `post idx`) and `wait_for_job`; a falsy
`job_id or id` is a fatal contract error, and so is a falsy `result_url` on
the returned result. -/
def client_generate_image (env : ClientEnv) (fs : Fs) (std : Stdlib) (net : Net)
    (prompt model : Str) (imageUrl webhookUrl userId : Option Str)
    (post : Nat → PostResponse) (getJob : Nat → JobPayload)
    (timeout interval : Nat) : Option (Except ClientError Str) :=
  match create_job env fs std net prompt model imageUrl webhookUrl userId [] post with
  | (.error e, _) => some (.error (.createFailed e))
  | (.ok idx, _) =>
    let created := post idx
    let jobId := pyOrStr created.jobIdField created.idField
    if pyTruthy jobId = false then some (.error .missingJobId)
    else
      match wait_for_job getJob timeout interval (jobId.getD []) with
      | none => none
      | some (.error e) => some (.error (.waitFailed e))
      | some (.ok result) =>
        if pyTruthy result.result_url = false then
          some (.error (.noResultUrl result.raw))
        else some (.ok (result.result_url.getD []))

end Sociclaw.Client

namespace Sociclaw.Client

open Sociclaw

/-- A failure status is never the completed status. -/
theorem terminalFailure_ne_completed (st : Str) (h : terminalFailure st = true) :
    st ≠ "completed".toList := by
  intro hc
  rw [hc] at h
  exact absurd h (by decide)

/-- Polling helper: with non-terminal statuses before poll `i` and `completed`
at poll `i` before the deadline, the loop returns that poll's result. -/
theorem waitForJobGo_completed (getJob : Nat → JobPayload) (deadline interval : Nat)
    (jobId : Str) :
    ∀ i fuel k t last,
      i < fuel →
      t + i * interval < deadline →
      (∀ j, j < i → statusNorm (getJob (k + j)) ≠ "completed".toList ∧
        terminalFailure (statusNorm (getJob (k + j))) = false) →
      statusNorm (getJob (k + i)) = "completed".toList →
      waitForJobGo getJob deadline interval jobId fuel k t last =
        some (.ok ⟨jobId, statusNorm (getJob (k + i)),
          pyOrStr (getJob (k + i)).resultUrlField (getJob (k + i)).urlField,
          some (getJob (k + i))⟩) := by
  intro i
  induction i with
  | zero =>
    intro fuel k t last hfuel ht hpre hst
    cases fuel with
    | zero => omega
    | succ f =>
      simp only [Nat.add_zero] at hst ⊢
      simp only [waitForJobGo]
      rw [if_pos (by omega : t < deadline), if_pos hst]
  | succ n ih =>
    intro fuel k t last hfuel ht hpre hst
    cases fuel with
    | zero => omega
    | succ f =>
      have h0 := hpre 0 (Nat.succ_pos n)
      simp only [Nat.add_zero] at h0
      have step : waitForJobGo getJob deadline interval jobId (f + 1) k t last =
          waitForJobGo getJob deadline interval jobId f (k + 1) (t + interval)
            (some (getJob k)) := by
        simp only [waitForJobGo]
        rw [if_pos (by
          have : (n + 1) * interval = n * interval + interval := Nat.succ_mul n interval
          omega : t < deadline), if_neg h0.1, if_neg (by simp [h0.2])]
      rw [step]
      have harith : t + interval + n * interval < deadline := by
        have : (n + 1) * interval = n * interval + interval := Nat.succ_mul n interval
        omega
      have hpre2 : ∀ j, j < n → statusNorm (getJob (k + 1 + j)) ≠ "completed".toList ∧
          terminalFailure (statusNorm (getJob (k + 1 + j))) = false := by
        intro j hj
        have := hpre (j + 1) (by omega)
        simpa [Nat.add_assoc, Nat.add_comm 1 j] using this
      have hst2 : statusNorm (getJob (k + 1 + n)) = "completed".toList := by
        have heq : k + 1 + n = k + (n + 1) := by omega
        rw [heq]; exact hst
      have := ih f (k + 1) (t + interval) (some (getJob k)) (by omega) harith hpre2 hst2
      rw [this]
      have heq : k + 1 + n = k + (n + 1) := by omega
      rw [heq]

/-- Polling helper: with non-terminal statuses before poll `i` and a failure
status at poll `i` before the deadline, the loop raises the job-failure error
carrying that payload. -/
theorem waitForJobGo_failed (getJob : Nat → JobPayload) (deadline interval : Nat)
    (jobId : Str) :
    ∀ i fuel k t last,
      i < fuel →
      t + i * interval < deadline →
      (∀ j, j < i → statusNorm (getJob (k + j)) ≠ "completed".toList ∧
        terminalFailure (statusNorm (getJob (k + j))) = false) →
      terminalFailure (statusNorm (getJob (k + i))) = true →
      waitForJobGo getJob deadline interval jobId fuel k t last =
        some (.error (.jobFailed jobId (some (getJob (k + i))))) := by
  intro i
  induction i with
  | zero =>
    intro fuel k t last hfuel ht hpre hst
    cases fuel with
    | zero => omega
    | succ f =>
      simp only [Nat.add_zero] at hst ⊢
      simp only [waitForJobGo]
      rw [if_pos (by omega : t < deadline),
        if_neg (terminalFailure_ne_completed _ hst), if_pos hst]
  | succ n ih =>
    intro fuel k t last hfuel ht hpre hst
    cases fuel with
    | zero => omega
    | succ f =>
      have h0 := hpre 0 (Nat.succ_pos n)
      simp only [Nat.add_zero] at h0
      have step : waitForJobGo getJob deadline interval jobId (f + 1) k t last =
          waitForJobGo getJob deadline interval jobId f (k + 1) (t + interval)
            (some (getJob k)) := by
        simp only [waitForJobGo]
        rw [if_pos (by
          have : (n + 1) * interval = n * interval + interval := Nat.succ_mul n interval
          omega : t < deadline), if_neg h0.1, if_neg (by simp [h0.2])]
      rw [step]
      have harith : t + interval + n * interval < deadline := by
        have : (n + 1) * interval = n * interval + interval := Nat.succ_mul n interval
        omega
      have hpre2 : ∀ j, j < n → statusNorm (getJob (k + 1 + j)) ≠ "completed".toList ∧
          terminalFailure (statusNorm (getJob (k + 1 + j))) = false := by
        intro j hj
        have := hpre (j + 1) (by omega)
        simpa [Nat.add_assoc, Nat.add_comm 1 j] using this
      have hst2 : terminalFailure (statusNorm (getJob (k + 1 + n))) = true := by
        have heq : k + 1 + n = k + (n + 1) := by omega
        rw [heq]; exact hst
      have := ih f (k + 1) (t + interval) (some (getJob k)) (by omega) harith hpre2 hst2
      rw [this]
      have heq : k + 1 + n = k + (n + 1) := by omega
      rw [heq]

/-- Polling helper: with only non-terminal statuses and a positive interval,
the loop terminates at the deadline with the timeout error carrying the last
payload seen. -/
theorem waitForJobGo_timeout (getJob : Nat → JobPayload) (deadline interval : Nat)
    (jobId : Str) (hint : 1 ≤ interval)
    (hterm : ∀ j, statusNorm (getJob j) ≠ "completed".toList ∧
      terminalFailure (statusNorm (getJob j)) = false) :
    ∀ fuel k t last,
      deadline - t < fuel →
      ∃ l, waitForJobGo getJob deadline interval jobId fuel k t last =
          some (.error (.timedOut jobId l)) ∧
        ((∃ m, l = some (getJob m)) ∨ (l = last ∧ deadline ≤ t)) := by
  intro fuel
  induction fuel with
  | zero => intro k t last h; omega
  | succ f ih =>
    intro k t last h
    by_cases ht : t < deadline
    · have step : waitForJobGo getJob deadline interval jobId (f + 1) k t last =
          waitForJobGo getJob deadline interval jobId f (k + 1) (t + interval)
            (some (getJob k)) := by
        simp only [waitForJobGo]
        rw [if_pos ht, if_neg (hterm k).1, if_neg (by simp [(hterm k).2])]
      obtain ⟨l, hl, hcase⟩ := ih (k + 1) (t + interval) (some (getJob k)) (by omega)
      refine ⟨l, by rw [step]; exact hl, ?_⟩
      rcases hcase with ⟨m, hm⟩ | ⟨hlast, _⟩
      · exact Or.inl ⟨m, hm⟩
      · exact Or.inl ⟨k, hlast⟩
    · refine ⟨last, ?_, Or.inr ⟨rfl, by omega⟩⟩
      simp only [waitForJobGo]
      rw [if_neg ht]

/-- C8: `wait_for_job` observing a (case-insensitively) `completed` status
returns a result whose `result_url` is the payload's `result_url` field or,
failing that (Python falsiness), its `url` field; observing `failed`, `error`,
`canceled` or `cancelled` raises the job-failure error carrying that payload;
reaching the deadline with no terminal status raises the timeout error
carrying the last payload; and a completed job whose result URL is falsy makes
the `generate_image` composition raise the fatal contract error. -/
theorem wait_for_job_terminal_behavior (getJob : Nat → JobPayload)
    (timeout interval : Nat) (jobId : Str) (hint : 1 ≤ interval) :
    (∀ i, i * interval < timeout →
      (∀ j, j < i → statusNorm (getJob j) ≠ "completed".toList ∧
        terminalFailure (statusNorm (getJob j)) = false) →
      statusNorm (getJob i) = "completed".toList →
      wait_for_job getJob timeout interval jobId =
        some (.ok ⟨jobId, statusNorm (getJob i),
          pyOrStr (getJob i).resultUrlField (getJob i).urlField, some (getJob i)⟩)) ∧
    (∀ i, i * interval < timeout →
      (∀ j, j < i → statusNorm (getJob j) ≠ "completed".toList ∧
        terminalFailure (statusNorm (getJob j)) = false) →
      terminalFailure (statusNorm (getJob i)) = true →
      wait_for_job getJob timeout interval jobId =
        some (.error (.jobFailed jobId (some (getJob i))))) ∧
    ((∀ j, statusNorm (getJob j) ≠ "completed".toList ∧
        terminalFailure (statusNorm (getJob j)) = false) →
      ∃ l, wait_for_job getJob timeout interval jobId =
          some (.error (.timedOut jobId l)) ∧
        (0 < timeout → ∃ m, l = some (getJob m))) ∧
    (∀ env fs std net prompt model imageUrl webhookUrl userId post idx n result,
      create_job env fs std net prompt model imageUrl webhookUrl userId [] post =
        (.ok idx, n) →
      pyTruthy (pyOrStr (post idx).jobIdField (post idx).idField) = true →
      wait_for_job getJob timeout interval
        ((pyOrStr (post idx).jobIdField (post idx).idField).getD []) =
        some (.ok result) →
      pyTruthy result.result_url = false →
      client_generate_image env fs std net prompt model imageUrl webhookUrl userId
        post getJob timeout interval = some (.error (.noResultUrl result.raw))) := by
  refine ⟨?_, ?_, ?_, ?_⟩
  · intro i hi hpre hst
    have hif : i ≤ i * interval := by
      have := Nat.mul_le_mul_left i hint
      simpa using this
    have := waitForJobGo_completed getJob timeout interval jobId i (timeout + 1) 0 0
      none (by omega) (by simpa using hi) (by simpa using hpre) (by simpa using hst)
    simpa [wait_for_job] using this
  · intro i hi hpre hst
    have hif : i ≤ i * interval := by
      have := Nat.mul_le_mul_left i hint
      simpa using this
    have := waitForJobGo_failed getJob timeout interval jobId i (timeout + 1) 0 0
      none (by omega) (by simpa using hi) (by simpa using hpre) (by simpa using hst)
    simpa [wait_for_job] using this
  · intro hterm
    obtain ⟨l, hl, hcase⟩ := waitForJobGo_timeout getJob timeout interval jobId hint
      hterm (timeout + 1) 0 0 none (by omega)
    refine ⟨l, by simpa [wait_for_job] using hl, ?_⟩
    intro hpos
    rcases hcase with ⟨m, hm⟩ | ⟨_, hz⟩
    · exact ⟨m, hm⟩
    · omega
  · intro env fs std net prompt model imageUrl webhookUrl userId post idx n result
      hcreate hjid hwait hfalsy
    unfold client_generate_image
    rw [hcreate]
    dsimp only
    rw [if_neg (by simp [hjid]), hwait]
    dsimp only
    rw [if_pos hfalsy]

/-- Witness for C8: a job whose first poll already reports `completed` with a
populated `result_url` yields that URL. -/
theorem wait_for_job_terminal_behavior_witness :
    wait_for_job (fun _ => ⟨"completed".toList, some ("https://x/y".toList), none⟩)
      10 1 ("j".toList) =
      some (.ok ⟨"j".toList, "completed".toList, some ("https://x/y".toList),
        some ⟨"completed".toList, some ("https://x/y".toList), none⟩⟩) :=
  (wait_for_job_terminal_behavior
      (fun _ => ⟨"completed".toList, some ("https://x/y".toList), none⟩)
      10 1 ("j".toList) (by decide)).1 0 (by decide)
    (fun j hj => absurd hj (by omega)) (by decide)

end Sociclaw.Client

namespace Sociclaw.Generator

open Sociclaw

/-! ## `image_generator.py`: the generation orchestrator -/

/-- The collaborators of `ImageGenerator.generate_image`, as oracles:
whether a `PaymentHandler` is configured, the credit balance it reports,
and the per-attempt outcomes of `provider_client.generate_image` (a result
URL or a raised exception message) and of `_save_image` (a saved path or a
raised exception message, given the URL to download). -/
structure OrchEnv where
  paymentConfigured : Bool
  credits : Int
  providerRun : Nat → Except Str Str
  saveRun : Nat → Str → Except Str Str

/-- Observable side effects of one `generate_image` call: provider calls made,
`_save_image` calls made, and `use_credit` debits performed. -/
structure OrchTrace where
  providerCalls : Nat
  saveCalls : Nat
  debits : Nat
deriving DecidableEq

/-- The two raised error kinds of `ImageGenerator.generate_image`: the
insufficient-credit `ValueError` and the terminal `RuntimeError` wrapping the
last caught error (`none` rendering Python's `last_error = None`). -/
inductive GenError where
  | insufficientCredits
  | exhausted (last : Option Str)
deriving DecidableEq

/-- Models `check_credits`: the payment collaborator's balance, or an effectively
unlimited `10**9` when none is configured. -/
def check_credits (env : OrchEnv) : Int :=
  if env.paymentConfigured then env.credits else 10 ^ 9

/-- The retry loop `for attempt in range(1, max_retries + 1)`, re-indexed
structurally: `remaining` counts the attempts left, so the `break` condition
`attempt >= self.max_retries` inside the handler becomes `remaining = 1`
(written `r = 0` after destructuring). The whole try-body — provider call,
`_save_image`, conditional `use_credit` — is in the guarded region, so any
error from it is caught, retried while attempts remain, and wrapped in the
terminal error otherwise. Returns `(url, local_path)` or the raised error,
with the effect trace. -/
def generateImageGo (env : OrchEnv) :
    (remaining attempt : Nat) → OrchTrace → Except GenError (Str × Str) × OrchTrace
  | 0, _, tr => (.error (.exhausted none), tr)
  | r + 1, attempt, tr =>
    match env.providerRun attempt with
    | .error e =>
      let tr1 : OrchTrace := ⟨tr.providerCalls + 1, tr.saveCalls, tr.debits⟩
      if r = 0 then (.error (.exhausted (some e)), tr1)
      else generateImageGo env r (attempt + 1) tr1
    | .ok url =>
      let tr1 : OrchTrace := ⟨tr.providerCalls + 1, tr.saveCalls, tr.debits⟩
      match env.saveRun attempt url with
      | .error e =>
        let tr2 : OrchTrace := ⟨tr1.providerCalls, tr1.saveCalls + 1, tr1.debits⟩
        if r = 0 then (.error (.exhausted (some e)), tr2)
        else generateImageGo env r (attempt + 1) tr2
      | .ok path =>
        let tr2 : OrchTrace := ⟨tr1.providerCalls, tr1.saveCalls + 1, tr1.debits⟩
        let tr3 : OrchTrace :=
          if env.paymentConfigured then ⟨tr2.providerCalls, tr2.saveCalls, tr2.debits + 1⟩
          else tr2
        (.ok (url, path), tr3)

/-- Models `ImageGenerator.generate_image`: the credit gate, then the retry loop
starting at attempt 1 with an empty effect trace. -/
def generate_image (env : OrchEnv) (maxRetries : Nat) :
    Except GenError (Str × Str) × OrchTrace :=
  if check_credits env ≤ 0 then (.error .insufficientCredits, ⟨0, 0, 0⟩)
  else generateImageGo env maxRetries 1 ⟨0, 0, 0⟩

end Sociclaw.Generator


namespace Sociclaw.Generator

/-- A run of the retry loop that returns success performs the debit exactly
once — only when a payment handler is configured — and has saved at least
once. -/
theorem generateImageGo_ok_trace (env : OrchEnv) :
    ∀ r attempt tr res tr2,
      generateImageGo env r attempt tr = (.ok res, tr2) →
      tr2.debits = tr.debits + (if env.paymentConfigured then 1 else 0) ∧
      tr.saveCalls + 1 ≤ tr2.saveCalls := by
  intro r
  induction r with
  | zero =>
    intro attempt tr res tr2 h
    simp [generateImageGo] at h
  | succ n ih =>
    intro attempt tr res tr2 h
    cases hp : env.providerRun attempt with
    | error e =>
      simp only [generateImageGo, hp] at h
      by_cases hn : n = 0
      · simp [hn] at h
      · rw [if_neg hn] at h
        exact ih (attempt + 1) ⟨tr.providerCalls + 1, tr.saveCalls, tr.debits⟩ res tr2 h
    | ok url =>
      cases hs : env.saveRun attempt url with
      | error e =>
        simp only [generateImageGo, hp, hs] at h
        by_cases hn : n = 0
        · simp [hn] at h
        · rw [if_neg hn] at h
          have hrec := ih (attempt + 1)
            ⟨tr.providerCalls + 1, tr.saveCalls + 1, tr.debits⟩ res tr2 h
          exact ⟨hrec.1, le_trans (Nat.le_succ _) hrec.2⟩
      | ok path =>
        simp only [generateImageGo, hp, hs] at h
        cases hpay : env.paymentConfigured
        · rw [hpay] at h
          simp only [Bool.false_eq_true, if_false, Prod.mk.injEq] at h
          obtain ⟨h1, h2⟩ := h
          subst h2
          simp [hpay]
        · rw [hpay] at h
          simp only [if_true, Prod.mk.injEq] at h
          obtain ⟨h1, h2⟩ := h
          subst h2
          simp [hpay]

/-- A run of the retry loop that raises never performed a debit. -/
theorem generateImageGo_error_trace (env : OrchEnv) :
    ∀ r attempt tr e tr2,
      generateImageGo env r attempt tr = (.error e, tr2) →
      tr2.debits = tr.debits := by
  intro r
  induction r with
  | zero =>
    intro attempt tr e tr2 h
    simp only [generateImageGo, Prod.mk.injEq] at h
    rw [← h.2]
  | succ n ih =>
    intro attempt tr e tr2 h
    cases hp : env.providerRun attempt with
    | error e0 =>
      simp only [generateImageGo, hp] at h
      by_cases hn : n = 0
      · rw [if_pos hn] at h
        simp only [Prod.mk.injEq] at h
        rw [← h.2]
      · rw [if_neg hn] at h
        exact ih (attempt + 1) ⟨tr.providerCalls + 1, tr.saveCalls, tr.debits⟩ e tr2 h
    | ok url =>
      cases hs : env.saveRun attempt url with
      | error e0 =>
        simp only [generateImageGo, hp, hs] at h
        by_cases hn : n = 0
        · rw [if_pos hn] at h
          simp only [Prod.mk.injEq] at h
          rw [← h.2]
        · rw [if_neg hn] at h
          exact ih (attempt + 1)
            ⟨tr.providerCalls + 1, tr.saveCalls + 1, tr.debits⟩ e tr2 h
      | ok path =>
        simp only [generateImageGo, hp, hs] at h
        cases hpay : env.paymentConfigured <;> rw [hpay] at h <;> simp at h

/-- The retry loop makes at most `remaining` further provider calls. -/
theorem generateImageGo_providerCalls (env : OrchEnv) :
    ∀ r attempt tr,
      (generateImageGo env r attempt tr).2.providerCalls ≤ tr.providerCalls + r := by
  intro r
  induction r with
  | zero => intro attempt tr; simp [generateImageGo]
  | succ n ih =>
    intro attempt tr
    cases hp : env.providerRun attempt with
    | error e =>
      simp only [generateImageGo, hp]
      by_cases hn : n = 0
      · rw [if_pos hn]
        simp
      · rw [if_neg hn]
        have hrec := ih (attempt + 1) ⟨tr.providerCalls + 1, tr.saveCalls, tr.debits⟩
        have hx : (⟨tr.providerCalls + 1, tr.saveCalls, tr.debits⟩ :
            OrchTrace).providerCalls = tr.providerCalls + 1 := rfl
        rw [hx] at hrec
        omega
    | ok url =>
      cases hs : env.saveRun attempt url with
      | error e =>
        simp only [generateImageGo, hp, hs]
        by_cases hn : n = 0
        · rw [if_pos hn]
          simp
        · rw [if_neg hn]
          have hrec := ih (attempt + 1) ⟨tr.providerCalls + 1, tr.saveCalls + 1, tr.debits⟩
          have hx : (⟨tr.providerCalls + 1, tr.saveCalls + 1, tr.debits⟩ :
              OrchTrace).providerCalls = tr.providerCalls + 1 := rfl
          rw [hx] at hrec
          omega
      | ok path =>
        simp only [generateImageGo, hp, hs]
        cases hpay : env.paymentConfigured <;> simp [hpay]

end Sociclaw.Generator

namespace Sociclaw.Generator

/-- C9: with a payment handler configured, a non-positive credit balance makes
`generate_image` raise the insufficient-credit error before any provider call
(the trace is empty); a successful run debits exactly one credit, and only
after `_save_image` succeeded (at least one save precedes the single debit,
and every raising run — in particular one whose saves all failed — performs
no debit at all). -/
theorem credit_gate_and_debit_after_save (env : OrchEnv) (m : Nat) :
    (env.paymentConfigured = true → env.credits ≤ 0 →
      generate_image env m = (.error .insufficientCredits, ⟨0, 0, 0⟩)) ∧
    (∀ res tr, generate_image env m = (.ok res, tr) → env.paymentConfigured = true →
      tr.debits = 1 ∧ 1 ≤ tr.saveCalls) ∧
    (∀ e tr, generate_image env m = (.error e, tr) → tr.debits = 0) := by
  refine ⟨?_, ?_, ?_⟩
  · intro hpay hc
    unfold generate_image
    rw [if_pos (by simp [check_credits, hpay]; exact hc)]
  · intro res tr h hpay
    unfold generate_image at h
    by_cases hc : check_credits env ≤ 0
    · rw [if_pos hc] at h
      simp at h
    · rw [if_neg hc] at h
      have := generateImageGo_ok_trace env m 1 ⟨0, 0, 0⟩ res tr h
      rw [hpay] at this
      simpa using this
  · intro e tr h
    unfold generate_image at h
    by_cases hc : check_credits env ≤ 0
    · rw [if_pos hc] at h
      simp only [Prod.mk.injEq] at h
      rw [← h.2]
    · rw [if_neg hc] at h
      exact generateImageGo_error_trace env m 1 ⟨0, 0, 0⟩ e tr h

/-- Witness for C9: `credits = 0` with a payment handler raises before any
provider call. -/
theorem credit_gate_and_debit_after_save_witness :
    generate_image
      ⟨true, 0, fun _ => .ok ("u".toList), fun _ _ => .ok ("p".toList)⟩ 3 =
      (.error .insufficientCredits, ⟨0, 0, 0⟩) :=
  (credit_gate_and_debit_after_save
      ⟨true, 0, fun _ => .ok ("u".toList), fun _ _ => .ok ("p".toList)⟩ 3).1
    rfl le_rfl

/-- C10: `generate_image` performs at most `max_retries` provider attempts —
the loop runs over `range(1, max_retries + 1)`, one fewer than the transport
layer's `1 + max_retries` — and with `max_retries = 0` and a positive credit
balance it makes no provider call at all and raises the terminal generation
error wrapping no underlying failure (`last_error = None`). -/
theorem provider_attempts_bounded (env : OrchEnv) (m : Nat) :
    ((generate_image env m).2.providerCalls ≤ m) ∧
    (0 < check_credits env →
      generate_image env 0 = (.error (.exhausted none), ⟨0, 0, 0⟩)) := by
  constructor
  · unfold generate_image
    by_cases hc : check_credits env ≤ 0
    · rw [if_pos hc]
      simp
    · rw [if_neg hc]
      have := generateImageGo_providerCalls env m 1 ⟨0, 0, 0⟩
      simpa using this
  · intro hpos
    unfold generate_image
    rw [if_neg (by omega)]
    rfl

/-- Witness for C10: no payment handler (unlimited credits), `max_retries = 0`:
no provider call and the terminal error wraps `none`. -/
theorem provider_attempts_bounded_witness :
    generate_image
      ⟨false, 0, fun _ => .ok ("u".toList), fun _ _ => .ok ("p".toList)⟩ 0 =
      (.error (.exhausted none), ⟨0, 0, 0⟩) :=
  (provider_attempts_bounded
      ⟨false, 0, fun _ => .ok ("u".toList), fun _ _ => .ok ("p".toList)⟩ 0).2
    (by norm_num [check_credits])

/-- Counterexample for C6: the claim says a `_save_image` failure propagates
to the caller and is not retried by the orchestrator's retry loop; but with
`max_retries = 2`, a provider that always succeeds and a save that fails on
attempt 1 and succeeds on attempt 2, `generate_image` catches the failure,
calls `_save_image` a second time and returns success — nothing propagates. -/
theorem save_failure_retried_counterexample :
    generate_image
      ⟨false, 0, fun _ => .ok ("u".toList),
        fun a _ => if a = 1 then .error ("boom".toList) else .ok ("p".toList)⟩ 2 =
      (.ok ("u".toList, "p".toList), ⟨2, 2, 0⟩) := by
  rfl

/-- C6 (amended): a failure in the `_save_image` step after a successful
provider call is caught by the orchestrator's retry loop like any other
attempt failure: while attempts remain the loop retries the whole sequence,
and on the final attempt the save error propagates wrapped in the terminal
generation error. -/
theorem save_failure_caught_and_retried (env : OrchEnv) (r attempt : Nat)
    (tr : OrchTrace) (url e : Str)
    (hp : env.providerRun attempt = .ok url)
    (hs : env.saveRun attempt url = .error e) :
    (0 < r → generateImageGo env (r + 1) attempt tr =
      generateImageGo env r (attempt + 1)
        ⟨tr.providerCalls + 1, tr.saveCalls + 1, tr.debits⟩) ∧
    (generateImageGo env 1 attempt tr =
      (.error (.exhausted (some e)),
        ⟨tr.providerCalls + 1, tr.saveCalls + 1, tr.debits⟩)) := by
  have step : generateImageGo env (r + 1) attempt tr =
      if r = 0 then (.error (.exhausted (some e)),
        ⟨tr.providerCalls + 1, tr.saveCalls + 1, tr.debits⟩)
      else generateImageGo env r (attempt + 1)
        ⟨tr.providerCalls + 1, tr.saveCalls + 1, tr.debits⟩ := by
    simp only [generateImageGo, hp, hs]
  constructor
  · intro hr
    rw [step, if_neg (by omega)]
  · have step0 : generateImageGo env (0 + 1) attempt tr =
        if 0 = 0 then (.error (.exhausted (some e)),
          ⟨tr.providerCalls + 1, tr.saveCalls + 1, tr.debits⟩)
        else generateImageGo env 0 (attempt + 1)
          ⟨tr.providerCalls + 1, tr.saveCalls + 1, tr.debits⟩ := by
      simp only [generateImageGo, hp, hs]
    simpa using step0

/-- Witness for the amended C6: a save failure on attempt 1 of 2 makes the
loop continue with attempt 2. -/
theorem save_failure_caught_and_retried_witness :
    generateImageGo
      ⟨false, 0, fun _ => .ok ("u".toList), fun _ _ => .error ("boom".toList)⟩
      2 1 ⟨0, 0, 0⟩ =
      generateImageGo
        ⟨false, 0, fun _ => .ok ("u".toList), fun _ _ => .error ("boom".toList)⟩
        1 2 ⟨1, 1, 0⟩ :=
  (save_failure_caught_and_retried
      ⟨false, 0, fun _ => .ok ("u".toList), fun _ _ => .error ("boom".toList)⟩
      1 1 ⟨0, 0, 0⟩ ("u".toList) ("boom".toList) rfl rfl).1 (by omega)

end Sociclaw.Generator
